import Mathlib

/-!
Verification development for the price-sheet document engine.

The Lean definitions below are shallow embeddings of the Python sources:
`src/utils.py` (header normalisation, price formatting, ready-by date
parsing), `src/locator.py` (marker-token table lookup), `src/docx_writer.py`
(the row writer), `src/template_reader.py` (the document reader used for
reconciliation) and `src/runner.py` (the change-detection step of
`sync_control_to_templates`, the rebuild loop, and the advisory process
lock).  Strings are modelled over their character lists; document cells are
modelled as a single run carrying text plus the formatting state the writer
touches.
-/

/-! ## Python string primitives -/

/-- Python whitespace for `str.strip` / `\s` (ASCII range, as used by the data). -/
def pyIsSpace (c : Char) : Bool :=
  c == ' ' || c == '\t' || c == '\n' || c == '\r' || c == '\x0b' || c == '\x0c'

/-- `str.strip()` on a character list. -/
def stripList (l : List Char) : List Char :=
  ((l.dropWhile pyIsSpace).reverse.dropWhile pyIsSpace).reverse

/-- `str.strip()`. -/
def pyStrip (s : String) : String :=
  String.mk (stripList s.toList)

/-- `str.upper()` (ASCII). -/
def pyUpper (s : String) : String :=
  String.mk (s.toList.map Char.toUpper)

/-- `str.lower()` (ASCII). -/
def pyLower (s : String) : String :=
  String.mk (s.toList.map Char.toLower)

/-- Does `needle` occur at the head of `hay`? -/
def leadsWith : List Char → List Char → Bool
  | [], _ => true
  | _ :: _, [] => false
  | n :: ns, h :: hs => n == h && leadsWith ns hs

/-- Python `needle in hay` substring containment, on character lists. -/
def containsList (hay needle : List Char) : Bool :=
  match hay with
  | [] => needle.isEmpty
  | _ :: rest => leadsWith needle hay || containsList rest needle

/-- Python `needle in hay` substring containment. -/
def strContains (hay needle : String) : Bool :=
  containsList hay.toList needle.toList

/-- `hay.endswith(tail)`. -/
def strEndsWith (hay tail : String) : Bool :=
  leadsWith tail.toList.reverse hay.toList.reverse

/-- Drop the last `n` characters (`s[:-n]` for `n ≤ len s`). -/
def dropTail (s : String) (n : Nat) : String :=
  String.mk (s.toList.take (s.toList.length - n))

/-- Remove every occurrence of the characters in `cs` (chained `s.replace(c, "")`). -/
def removeChars (s : String) (cs : List Char) : String :=
  String.mk (s.toList.filter (fun c => !(cs.contains c)))

/-- ASCII decimal digit test. -/
def isDigitChar (c : Char) : Bool :=
  decide ('0' ≤ c) && decide (c ≤ '9')

/-- ASCII letter test (`[A-Za-z]`). -/
def isAsciiLetter (c : Char) : Bool :=
  (decide ('A' ≤ c) && decide (c ≤ 'Z')) || (decide ('a' ≤ c) && decide (c ≤ 'z'))

/-- `[A-Za-z0-9]`, the class used by the locator's boundary lookahead. -/
def isAsciiAlnum (c : Char) : Bool := isAsciiLetter c || isDigitChar c

/-- Numeric value of a digit character. -/
def digitVal (c : Char) : Nat := c.toNat - '0'.toNat

/-- Value of a little-endian digit list. -/
def valLE : List Char → Nat
  | [] => 0
  | c :: cs => digitVal c + 10 * valLE cs

/-- Value of a big-endian (written-order) digit list. -/
def digitsToNat (l : List Char) : Nat := valLE l.reverse

/-! ## Python `float(s)` / `int(float(s))`

`format_price` and `parse_ready_by` call `float(s)` and then truncate with
`int`.  The inputs the repository feeds these functions are plain decimal
numerals, so the model parses an optional sign, an integer digit part and an
optional fractional digit part; it records the truncated magnitude and
whether any fractional digit is non-zero, which is enough to decide
`int(float(s))` and the strict range comparisons the code performs. -/

structure PyNum where
  neg : Bool
  ip : Nat
  fracNZ : Bool
deriving DecidableEq, Repr

/-- `int(float(s))` truncates toward zero. -/
def PyNum.toInt (n : PyNum) : Int :=
  if n.neg then -(n.ip : Int) else (n.ip : Int)

/-- Split a leading run of decimal digits. -/
def takeDigits (l : List Char) : List Char × List Char :=
  (l.takeWhile isDigitChar, l.dropWhile isDigitChar)

/-- Parse a decimal numeral the way `float` reads `[+-]?digits[.digits]?`;
`none` where `float(s)` raises `ValueError` on such shapes. -/
def pyFloat (s : String) : Option PyNum :=
  let l := s.toList
  let neg : Bool := l.head? == some '-'
  let l1 := if l.head? = some '-' ∨ l.head? = some '+' then l.tail else l
  let d1 := l1.takeWhile isDigitChar
  let r1 := l1.dropWhile isDigitChar
  match r1 with
  | [] => if d1 = [] then none else some ⟨neg, digitsToNat d1, false⟩
  | '.' :: r2 =>
      let d2 := r2.takeWhile isDigitChar
      let r3 := r2.dropWhile isDigitChar
      if r3 = [] ∧ (d1 ≠ [] ∨ d2 ≠ []) then
        some ⟨neg, digitsToNat d1, d2.any (fun c => c != '0')⟩
      else none
  | _ => none

/-! ## `src/utils.py` — header normalisation -/

/-- The character for one decimal digit. -/
def digitChar (d : Nat) : Char :=
  if d = 0 then '0' else if d = 1 then '1' else if d = 2 then '2'
  else if d = 3 then '3' else if d = 4 then '4' else if d = 5 then '5'
  else if d = 6 then '6' else if d = 7 then '7' else if d = 8 then '8' else '9'

/-- Little-endian digit characters, fuelled for structural recursion (the
value never needs more digits than its own magnitude supplies). -/
def natDigitsAux : Nat → Nat → List Char
  | 0, _ => []
  | _ + 1, 0 => []
  | fuel + 1, n + 1 => digitChar ((n + 1) % 10) :: natDigitsAux fuel ((n + 1) / 10)

/-- Little-endian digit characters of a natural number. -/
def natDigitsLE (n : Nat) : List Char := natDigitsAux n n

/-- Decimal rendering of a natural number (`str(n)`). -/
def natToDigits (n : Nat) : List Char :=
  if n = 0 then ['0'] else (natDigitsLE n).reverse

/-- `re.sub(r"\s+", " ", s)`: collapse each whitespace run to one space.
The flag records whether the previous character was whitespace. -/
def collapseWSAux : Bool → List Char → List Char
  | _, [] => []
  | prevSp, c :: rest =>
      if pyIsSpace c then
        if prevSp then collapseWSAux true rest
        else ' ' :: collapseWSAux true rest
      else c :: collapseWSAux false rest

def collapseWS (l : List Char) : List Char := collapseWSAux false l

/-- `\w` or whitespace: what `re.sub(r"[^\w\s]", "", s)` keeps. -/
def isWordOrSpace (c : Char) : Bool :=
  isAsciiAlnum c || c == '_' || pyIsSpace c

/-- `normalize_header`: strip, uppercase, fold `-`/`_` to space, drop
characters outside `\w\s`, collapse whitespace runs, strip. -/
def normalize_header (text : String) : String :=
  if text = "" then "" else
  let s1 := pyUpper (pyStrip text)
  let s2 := s1.toList.map (fun c => if c = '-' ∨ c = '_' then ' ' else c)
  let s3 := s2.filter isWordOrSpace
  let s4 := collapseWS s3
  pyStrip (String.mk s4)

def HEADER_ALIASES : List (String × List String) :=
  [("SITE", ["SITE", "HOMESITE", "HOME SITE", "HS"]),
   ("PRICE", ["PRICE", "SALES PRICE", "FINAL PRICE"]),
   ("ADDRESS", ["ADDRESS", "PROPERTY ADDRESS"]),
   ("READY BY", ["READY BY", "READYBY", "READY BY DATE", "MOVE IN", "MOVEIN", "MOVE IN DATE"]),
   ("NOTES", ["NOTES", "NOTE"])]

def REQUIRED_HEADERS : List String := ["SITE", "PRICE", "READY BY"]

/-- `resolve_header`: first alias-table entry listing the normalized text. -/
def resolve_header (normalized : String) : Option String :=
  match HEADER_ALIASES.find? (fun p => p.2.contains normalized) with
  | some p => some p.1
  | none => none

/-- Association-list lookup standing in for Python `dict` access. -/
def hmLookup (hm : List (String × Nat)) (k : String) : Option Nat :=
  match hm.find? (fun p => p.1 == k) with
  | some p => some p.2
  | none => none

/-- `build_header_map`: `{canonical: column_index}`, first occurrence wins. -/
def buildHeaderMapAux : List String → Nat → List (String × Nat) → List (String × Nat)
  | [], _, acc => acc
  | cell :: rest, idx, acc =>
      match resolve_header (normalize_header cell) with
      | some canonical =>
          if hmLookup acc canonical = none then
            buildHeaderMapAux rest (idx + 1) (acc ++ [(canonical, idx)])
          else buildHeaderMapAux rest (idx + 1) acc
      | none => buildHeaderMapAux rest (idx + 1) acc

def build_header_map (cells : List String) : List (String × Nat) :=
  buildHeaderMapAux cells 0 []

/-- `validate_headers`: required headers missing from the map. -/
def validate_headers (hm : List (String × Nat)) : List String :=
  REQUIRED_HEADERS.filter (fun h => (hmLookup hm h).isNone)

/-! ## `src/utils.py` — price formatting -/

/-- Thousands grouping of a little-endian digit list: `k` counts how many
digits may still be emitted before the next comma (`f"{n:,}"` works from the
least significant end). -/
def groupLE : List Char → Nat → List Char
  | [], _ => []
  | c :: rest, 0 => ',' :: c :: groupLE rest 2
  | c :: rest, k + 1 => c :: groupLE rest k

/-- `f"{n:,}"` for a natural number. -/
def natGrouped (n : Nat) : String :=
  String.mk ((groupLE (natToDigits n).reverse 3).reverse)

/-- `f"{i:,}"` for an integer. -/
def intGrouped (i : Int) : String :=
  if i < 0 then "-" ++ natGrouped i.natAbs else natGrouped i.natAbs

/-- `format_price`: `$1,234,567`, no decimals; non-numeric input is returned
stripped; blank input gives the empty string. -/
def format_price (value : String) : String :=
  if pyStrip value = "" then "" else
  let s := pyStrip (removeChars (pyStrip value) ['$', ','])
  match pyFloat s with
  | some num => "$" ++ intGrouped num.toInt
  | none => pyStrip value

/-! ## `src/utils.py` — date parsing -/

def isLeapYear (y : Nat) : Bool :=
  (y % 4 == 0 && y % 100 != 0) || y % 400 == 0

def daysInMonth (y m : Nat) : Nat :=
  if m = 2 then (if isLeapYear y then 29 else 28)
  else if m = 4 ∨ m = 6 ∨ m = 9 ∨ m = 11 then 30
  else 31

/-- Next calendar day. -/
def nextDay : Nat × Nat × Nat → Nat × Nat × Nat
  | (y, m, d) =>
      if d < daysInMonth y m then (y, m, d + 1)
      else if m < 12 then (y, m + 1, 1)
      else (y + 1, 1, 1)

/-- `date + timedelta(days=n)`. -/
def addDays : Nat × Nat × Nat → Nat → Nat × Nat × Nat
  | ymd, 0 => ymd
  | ymd, n + 1 => addDays (nextDay ymd) n

/-- `SHEETS_EPOCH = date(1899, 12, 30)`. -/
def SHEETS_EPOCH : Nat × Nat × Nat := (1899, 12, 30)

/-- Zero-pad to two digits (`%m` / `%d`). -/
def pad2 (n : Nat) : String :=
  if n < 10 then "0" ++ String.mk (natToDigits n) else String.mk (natToDigits n)

/-- `strftime("%m/%d/%Y")` for the years in play. -/
def fmtDate : Nat × Nat × Nat → String
  | (y, m, d) => pad2 m ++ "/" ++ pad2 d ++ "/" ++ String.mk (natToDigits y)

def MONTH_NAMES : List (String × Nat) :=
  [("january", 1), ("february", 2), ("march", 3), ("april", 4),
   ("may", 5), ("june", 6), ("july", 7), ("august", 8),
   ("september", 9), ("october", 10), ("november", 11), ("december", 12),
   ("jan", 1), ("feb", 2), ("mar", 3), ("apr", 4),
   ("jun", 6), ("jul", 7), ("aug", 8),
   ("sep", 9), ("sept", 9), ("oct", 10), ("nov", 11), ("dec", 12)]

def monthLookup (name : String) : Option Nat :=
  match MONTH_NAMES.find? (fun p => p.1 == name) with
  | some p => some p.2
  | none => none

/-- `1 < serial < 200000`, decided from the parsed decimal. -/
def serialInRange (n : PyNum) : Bool :=
  !n.neg && (decide (2 ≤ n.ip) || (decide (n.ip = 1) && n.fracNZ))
    && decide (n.ip ≤ 199999)

/-- Anchored greedy match of `digits sep digits sep digits`, returning the
three digit groups; equivalent to the code's anchored regexes because a
`\d{1,2}`/`\d{4}` group followed by a non-digit can only bind a maximal
digit run (length checks are applied by the callers). -/
def matchNumTriple (sep : Char) (l : List Char) : Option (List Char × List Char × List Char) :=
  let (a, r1) := takeDigits l
  match r1 with
  | s1 :: r2 =>
      if s1 = sep then
        let (b, r3) := takeDigits r2
        match r3 with
        | s2 :: r4 =>
            if s2 = sep then
              let (c, r5) := takeDigits r4
              if r5 = [] then some (a, b, c) else none
            else none
        | [] => none
      else none
  | [] => none

/-- `^(\d{1,2})/(\d{1,2})/(\d{4})$`. -/
def matchMDY (s : String) : Option (Nat × Nat × Nat) :=
  match matchNumTriple '/' s.toList with
  | some (a, b, c) =>
      if (1 ≤ a.length ∧ a.length ≤ 2) ∧ (1 ≤ b.length ∧ b.length ≤ 2)
          ∧ c.length = 4 then
        some (digitsToNat a, digitsToNat b, digitsToNat c)
      else none
  | none => none

/-- `^(\d{4})-(\d{1,2})-(\d{1,2})$`. -/
def matchYMD (s : String) : Option (Nat × Nat × Nat) :=
  match matchNumTriple '-' s.toList with
  | some (a, b, c) =>
      if a.length = 4 ∧ (1 ≤ b.length ∧ b.length ≤ 2)
          ∧ (1 ≤ c.length ∧ c.length ≤ 2) then
        some (digitsToNat a, digitsToNat b, digitsToNat c)
      else none
  | none => none

/-- `^([A-Za-z]+)\s+(\d{1,2}),?\s+(\d{4})$` — "April 15, 2026". -/
def matchMonthDayYear (s : String) : Option (String × Nat × Nat) :=
  let l := s.toList
  let letters := l.takeWhile isAsciiLetter
  let r1 := l.dropWhile isAsciiLetter
  if letters = [] then none else
  let ws1 := r1.takeWhile pyIsSpace
  let r2 := r1.dropWhile pyIsSpace
  if ws1 = [] then none else
  let day := r2.takeWhile isDigitChar
  let r3 := r2.dropWhile isDigitChar
  if ¬ (1 ≤ day.length ∧ day.length ≤ 2) then none else
  let r4 := match r3 with
            | ',' :: rest => rest
            | _ => r3
  let ws2 := r4.takeWhile pyIsSpace
  let r5 := r4.dropWhile pyIsSpace
  if ws2 = [] then none else
  let year := r5.takeWhile isDigitChar
  let r6 := r5.dropWhile isDigitChar
  if year.length = 4 ∧ r6 = [] then
    some (String.mk letters, digitsToNat day, digitsToNat year)
  else none

/-- `^([A-Za-z]+),?\s+(\d{4})$` — "April, 2026" / "April 2026". -/
def matchMonthYear (s : String) : Option (String × Nat) :=
  let l := s.toList
  let letters := l.takeWhile isAsciiLetter
  let r1 := l.dropWhile isAsciiLetter
  if letters = [] then none else
  let r2 := match r1 with
            | ',' :: rest => rest
            | _ => r1
  let ws := r2.takeWhile pyIsSpace
  let r3 := r2.dropWhile pyIsSpace
  if ws = [] then none else
  let year := r3.takeWhile isDigitChar
  let r4 := r3.dropWhile isDigitChar
  if year.length = 4 ∧ r4 = [] then
    some (String.mk letters, digitsToNat year)
  else none

/-- "Month, Year" attempt, the last one before `return s`. -/
def readyByMonthYear (s : String) : String :=
  match matchMonthYear s with
  | some (monthName, year) =>
      match monthLookup (pyLower monthName) with
      | some monthNum => pad2 monthNum ++ "/01/" ++ String.mk (natToDigits year)
      | none => s
  | none => s

/-- The regex cascade of `parse_ready_by` after the serial-number attempt. -/
def readyByRegexes (s : String) : String :=
  match matchMDY s with
  | some (month, day, year) =>
      pad2 month ++ "/" ++ pad2 day ++ "/" ++ String.mk (natToDigits year)
  | none =>
  match matchYMD s with
  | some (year, month, day) =>
      pad2 month ++ "/" ++ pad2 day ++ "/" ++ String.mk (natToDigits year)
  | none =>
  match matchMonthDayYear s with
  | some (monthName, day, year) =>
      match monthLookup (pyLower monthName) with
      | some monthNum =>
          pad2 monthNum ++ "/" ++ pad2 day ++ "/" ++ String.mk (natToDigits year)
      | none => readyByMonthYear s
  | none => readyByMonthYear s

/-- `parse_ready_by` on a string input: blank → `""`; a numeral strictly
between 1 and 200000 → Sheets serial date counted from the 1899-12-30 epoch;
otherwise the anchored regex cascade; final fall-through returns the
stripped input. -/
def parse_ready_by (value : String) : String :=
  if pyStrip value = "" then "" else
  let s := pyStrip value
  match pyFloat s with
  | some serial =>
      if serialInRange serial = true then
        fmtDate (addDays SHEETS_EPOCH serial.ip)
      else readyByRegexes s
  | none => readyByRegexes s

/-- `normalize_for_compare`: strip then uppercase. -/
def normalize_for_compare (value : String) : String :=
  pyUpper (pyStrip value)

/-! ## Document model

A cell is modelled as its text (a single run) plus the formatting state the
writer touches: run font colour, cell shading fill, and vertical/horizontal
centring. -/

structure DocxCell where
  text : String
  font : Nat := 0
  fill : Option String := none
  vCenter : Bool := false
  hCenter : Bool := false
deriving DecidableEq, Repr

abbrev DocxRow := List DocxCell
abbrev DocxTable := List DocxRow
abbrev DocxDoc := List DocxTable

def COLOR_RED : Nat := 0xFF0000
def COLOR_WHITE : Nat := 0xFFFFFF
def COLOR_BLACK : Nat := 0x000000
def HEX_PURPLE : String := "7030A0"

/-! ## `src/locator.py` -/

structure TableMatch where
  table_index : Nat
  cell_row : Nat
  cell_col : Nat
  cell_text : String
deriving DecidableEq, Repr

inductive LocErr where
  | emptyCode
  | notFound
  | multipleTables
deriving DecidableEq, Repr

/-- All cells of a row, tagged with `(table, row, column)` indices in scan
order. -/
def scanCellsRow (ti ri ci : Nat) : DocxRow → List TableMatch
  | [] => []
  | c :: cs => ⟨ti, ri, ci, c.text⟩ :: scanCellsRow ti ri (ci + 1) cs

def scanCellsTable (ti ri : Nat) : DocxTable → List TableMatch
  | [] => []
  | r :: rs => scanCellsRow ti ri 0 r ++ scanCellsTable ti (ri + 1) rs

def scanCellsDoc (ti : Nat) : DocxDoc → List TableMatch
  | [] => []
  | t :: ts => scanCellsTable ti 0 t ++ scanCellsDoc (ti + 1) ts

/-- Every cell of every table in document scan order (tables outermost, then
rows, then cells), exactly the triple loop of
`find_table_by_invisible_code`. -/
def scanCells (doc : DocxDoc) : List TableMatch := scanCellsDoc 0 doc

/-- Match `core` at the head of `l`, returning the remainder. -/
def chopLead : List Char → List Char → Option (List Char)
  | [], rest => some rest
  | _ :: _, [] => none
  | n :: ns, h :: hs => if n = h then chopLead ns hs else none

/-- `re.escape(core) + r"(?![A-Za-z0-9])"` matching at this position: `core`
here, and the next character (if any) not alphanumeric. -/
def boundaryAt (l core : List Char) : Bool :=
  match chopLead core l with
  | some [] => true
  | some (c :: _) => !isAsciiAlnum c
  | none => false

/-- `re.search` of the boundary pattern anywhere in `hay` (the end-of-string
position included). -/
def boundaryContainsList (hay core : List Char) : Bool :=
  match hay with
  | [] => boundaryAt [] core
  | _ :: rest => boundaryAt hay core || boundaryContainsList rest core

/-- Exact-substring matches of the invisible code, in scan order. -/
def exactMatches (doc : DocxDoc) (code : String) : List TableMatch :=
  (scanCells doc).filter (fun m => strContains m.cell_text code)

/-- Fallback matches of the code's core with the boundary lookahead. -/
def fallbackMatches (doc : DocxDoc) (core : String) : List TableMatch :=
  (scanCells doc).filter (fun m => boundaryContainsList m.cell_text.toList core.toList)

/-- The match list `find_table_by_invisible_code` ends up with: exact matches,
or — when there are none and the code ends in `]]` — the boundary-checked
matches of the code with that delimiter stripped. -/
def effMatches (doc : DocxDoc) (code : String) : List TableMatch :=
  let ms := exactMatches doc code
  if ms = [] ∧ strEndsWith code "]]" = true then
    fallbackMatches doc (dropTail code 2)
  else ms

def find_table_by_invisible_code (doc : DocxDoc) (code : String) :
    Except LocErr TableMatch :=
  if code = "" then .error .emptyCode else
  match effMatches doc code with
  | [] => .error .notFound
  | m :: rest =>
      if rest.any (fun m2 => m2.table_index != m.table_index) then
        .error .multipleTables
      else .ok m

/-- Remove every occurrence of `needle` (`str.replace(needle, "")`), fuelled
for structural recursion; the text's length is always enough fuel. -/
def removeSubAux : Nat → List Char → List Char → List Char
  | 0, l, _ => l
  | _ + 1, [], _ => []
  | fuel + 1, h :: rest, needle =>
      if needle ≠ [] ∧ leadsWith needle (h :: rest) = true then
        removeSubAux fuel (rest.drop (needle.length - 1)) needle
      else h :: removeSubAux fuel rest needle

def removeSub (hay needle : List Char) : List Char :=
  removeSubAux hay.length hay needle

/-- `remove_invisible_code` on the single modelled run of the matched cell:
remove the exact code, then (for a `]]`-terminated code) its broken-delimiter
core, then blank a run that is a stray `]]`. -/
def removeCodeFromCellText (text code : String) : String :=
  let codes := if strEndsWith code "]]" = true then [code, dropTail code 2] else [code]
  let t1 := codes.foldl (fun acc c => String.mk (removeSub acc.toList c.toList)) text
  if pyStrip t1 = "]]" then "" else t1

def removeCodeFromTable (t : DocxTable) (m : TableMatch) (code : String) : DocxTable :=
  match (t.getD m.cell_row []).get? m.cell_col with
  | some cell =>
      t.set m.cell_row
        ((t.getD m.cell_row []).set m.cell_col {cell with text := removeCodeFromCellText cell.text code})
  | none => t

/-! ## `src/control_parser.py` — the record type the writer consumes -/

structure ControlRow where
  enabled : Bool := true
  community : String := ""
  homesite : String := ""
  floorplan : String := ""
  price : String := ""
  address : String := ""
  ready_by : String := ""
  move_in : String := ""
  notes : String := ""
deriving DecidableEq, Repr

/-! ## `src/docx_writer.py` -/

structure DocxWriteResult where
  action : String := ""
  row_index : Int := -1
  details : String := ""
  error : String := ""
deriving DecidableEq, Repr

/-- `_get_cell_texts`: stripped text of every cell in a row ([] out of range). -/
def get_cell_texts (t : DocxTable) (r : Nat) : List String :=
  (t.getD r []).map (fun c => pyStrip c.text)

/-- `_set_cell_text`: overwrite a cell's text, keeping its base formatting.
Out-of-range column indices are left untouched (the writer only addresses
header-mapped columns that exist). -/
def set_cell_text (t : DocxTable) (r c : Nat) (v : String) : DocxTable :=
  if r < t.length then
    match (t.getD r []).get? c with
    | some cell => t.set r ((t.getD r []).set c {cell with text := v})
    | none => t
  else t

/-- `_is_row_blank`: all header-mapped columns empty or whitespace. -/
def is_row_blank (t : DocxTable) (hm : List (String × Nat)) (r : Nat) : Bool :=
  if r ≥ t.length then true else
  let cells := get_cell_texts t r
  !(hm.any (fun p => decide (p.2 < cells.length) && (pyStrip (cells.getD p.2 "") != "")))

/-- `_find_existing_site_rows`: data-row indices whose SITE cell (normalized)
equals the record's homesite. -/
def find_existing_site_rows (t : DocxTable) (hm : List (String × Nat))
    (homesite : String) (data_start : Nat) : List Nat :=
  match hmLookup hm "SITE" with
  | none => []
  | some site_col =>
      (List.range' data_start (t.length - data_start)).filter (fun r =>
        let cells := get_cell_texts t r
        decide (site_col < cells.length)
          && (normalize_for_compare (cells.getD site_col "")
                == normalize_for_compare homesite))

/-- `_find_next_blank_row` (`none` for the code's `-1`). -/
def find_next_blank_row (t : DocxTable) (hm : List (String × Nat))
    (data_start : Nat) : Option Nat :=
  (List.range' data_start (t.length - data_start)).find? (fun r => is_row_blank t hm r)

/-- `_add_row_to_table`: clone the last row's structure with all text cleared. -/
def add_row_to_table (t : DocxTable) : DocxTable :=
  t ++ [((t.getLast?).getD []).map (fun c => {c with text := ""})]

/-- `_determine_row_style`. -/
def determine_row_style (notes : String) : String :=
  let nl := pyLower (pyStrip notes)
  if strContains nl "sold" = true then "sold"
  else if strContains nl "upgraded flooring" = true then "upgraded_flooring"
  else "normal"

/-- The per-cell effect of `_apply_row_formatting`. -/
def formatCell (style : String) (notes_col : Int) (col : Nat) (cell : DocxCell) : DocxCell :=
  let cell1 :=
    if style = "sold" then {cell with font := COLOR_RED, fill := none}
    else if style = "upgraded_flooring" then
      (if (col : Int) = notes_col then {cell with font := COLOR_WHITE, fill := some HEX_PURPLE}
       else {cell with font := COLOR_BLACK, fill := none})
    else {cell with font := COLOR_BLACK, fill := none}
  {cell1 with vCenter := true, hCenter := true}

/-- `_apply_row_formatting`: conditional colour plus centring on a data row. -/
def apply_row_formatting (t : DocxTable) (r : Nat) (notes : String)
    (hm : List (String × Nat)) : DocxTable :=
  if r ≥ t.length then t else
  let style := determine_row_style notes
  let notes_col : Int := match hmLookup hm "NOTES" with
                         | some n => (n : Int)
                         | none => -1
  t.set r (((t.getD r []).enum).map (fun p => formatCell style notes_col p.1 p.2))

/-- One `if "X" in header_map: _set_cell_text(...)` step of the writer. -/
def setField (t : DocxTable) (r : Nat) (col : Option Nat) (v : String) : DocxTable :=
  match col with
  | some c => set_cell_text t r c v
  | none => t

/-- `_write_row`: write all mapped fields (SITE, PRICE, ADDRESS, READY BY,
NOTES, in the source's order), then re-apply formatting. -/
def write_row (t : DocxTable) (r : Nat) (hm : List (String × Nat))
    (control : ControlRow) : DocxTable :=
  apply_row_formatting
    (setField (setField (setField (setField
      (setField t r (hmLookup hm "SITE") control.homesite)
      r (hmLookup hm "PRICE") (format_price control.price))
      r (hmLookup hm "ADDRESS") control.address)
      r (hmLookup hm "READY BY") (parse_ready_by control.ready_by))
      r (hmLookup hm "NOTES") control.notes)
    r control.notes hm

/-- `_is_blank` inside `_fill_blank_cells`, over the row's cell snapshot. -/
def cellIsBlank (cells : List String) (hm : List (String × Nat)) (name : String) : Bool :=
  match hmLookup hm name with
  | none => false
  | some col => decide (col ≥ cells.length) || (pyStrip (cells.getD col "") == "")

/-- One guarded `if blank: _set_cell_text(...)` step of the blank filler. -/
def fillField (t : DocxTable) (r : Nat) (col : Option Nat) (blank : Bool)
    (v : String) : DocxTable :=
  match col with
  | some c => if blank then set_cell_text t r c v else t
  | none => t

/-- `_fill_blank_cells`: fill only currently-blank cells (ADDRESS, READY BY,
NOTES, then PRICE under `allow_price_update`, blankness judged on the row's
snapshot taken before any write), then refresh formatting from the record's
notes. -/
def fill_blank_cells (t : DocxTable) (r : Nat) (hm : List (String × Nat))
    (control : ControlRow) (allow_price_update : Bool) : DocxTable :=
  let cells := get_cell_texts t r
  apply_row_formatting
    (fillField (fillField (fillField
      (fillField t r (hmLookup hm "ADDRESS") (cellIsBlank cells hm "ADDRESS") control.address)
      r (hmLookup hm "READY BY") (cellIsBlank cells hm "READY BY") (parse_ready_by control.ready_by))
      r (hmLookup hm "NOTES") (cellIsBlank cells hm "NOTES") control.notes)
      r (hmLookup hm "PRICE") (allow_price_update && cellIsBlank cells hm "PRICE") (format_price control.price))
    r control.notes hm

/-- The table-level body of `write_to_template` (everything after the table
has been located): header checks, duplicate handling, overwrite / blank-fill /
append.  `none` stands for the code's `return None, result` failure returns. -/
def writeToTable (table : DocxTable) (control : ControlRow)
    (overwrite_existing update_only_blank_cells allow_price_update strict_mode : Bool)
    (header_row_1based : Nat) : Option DocxTable × DocxWriteResult :=
  let header_idx := header_row_1based - 1
  if header_idx ≥ table.length then
    (none, {error := "header row beyond table size"})
  else
  let hm := build_header_map (get_cell_texts table header_idx)
  if validate_headers hm ≠ [] then
    (none, {error := "missing required headers"})
  else
  let data_start := header_idx + 1
  let existing := find_existing_site_rows table hm control.homesite data_start
  if 1 < existing.length ∧ strict_mode = true then
    (none, {action := "duplicate_site_rows_in_table", error := "duplicate site rows in table"})
  else
  match existing with
  | target :: _ =>
      if overwrite_existing = true then
        (some (write_row table target hm control),
         {action := "overwritten", row_index := (target : Int), details := "overwrote existing site"})
      else if update_only_blank_cells = true then
        (some (fill_blank_cells table target hm control allow_price_update),
         {action := "updated_blanks", row_index := (target : Int), details := "updated blank cells"})
      else
        (none, {action := "duplicate_site_same_table", error := "site already exists"})
  | [] =>
      match find_next_blank_row table hm data_start with
      | some blank =>
          (some (write_row table blank hm control),
           {action := "appended", row_index := (blank : Int), details := "appended"})
      | none =>
          (some (write_row (add_row_to_table table) table.length hm control),
           {action := "appended", row_index := (table.length : Int), details := "appended to new row"})

/-- `write_to_template`: locate the table by invisible code (locator failures
propagate as the code's raised `ValueError`), run the table-level write, and
optionally strip the invisible code from the matched cell. -/
def write_to_template (doc : DocxDoc) (invisible_code : String) (control : ControlRow)
    (overwrite_existing update_only_blank_cells allow_price_update strict_mode remove_ic : Bool)
    (header_row_1based : Nat) : Except LocErr (Option DocxDoc × DocxWriteResult) :=
  match find_table_by_invisible_code doc invisible_code with
  | .error e => .error e
  | .ok m =>
      match writeToTable (doc.getD m.table_index []) control overwrite_existing
          update_only_blank_cells allow_price_update strict_mode header_row_1based with
      | (none, res) => .ok (none, res)
      | (some t2, res) =>
          let t3 := if remove_ic then removeCodeFromTable t2 m invisible_code else t2
          .ok (some (doc.set m.table_index t3), res)

/-! ## `src/template_reader.py` — `read_final_docx_data` -/

structure RowData where
  homesite : String := ""
  price : String := ""
  address : String := ""
  ready_by : String := ""
  notes : String := ""
deriving DecidableEq, Repr

def readField (cells : List String) (col : Option Nat) : String :=
  match col with
  | some c => if c < cells.length then pyStrip (cells.getD c "") else ""
  | none => ""

/-- Rows of one table under the header-addressed read: requires a resolvable
SITE column, skips rows whose SITE cell is blank. -/
def readFinalTable (t : DocxTable) (header_row_1based : Nat) : List RowData :=
  let hidx := header_row_1based - 1
  if hidx ≥ t.length then [] else
  let hm := build_header_map (get_cell_texts t hidx)
  match hmLookup hm "SITE" with
  | none => []
  | some site_col =>
      (List.range' (hidx + 1) (t.length - (hidx + 1))).filterMap (fun r =>
        let cells := get_cell_texts t r
        let site := if site_col < cells.length then cells.getD site_col "" else ""
        if pyStrip site = "" then none else
        some { homesite := pyStrip site
               price := readField cells (hmLookup hm "PRICE")
               address := readField cells (hmLookup hm "ADDRESS")
               ready_by := readField cells (hmLookup hm "READY BY")
               notes := readField cells (hmLookup hm "NOTES") })

/-- `read_final_docx_data`: union the rows of every table whose header row
resolves a SITE column. -/
def read_final_docx_data (doc : DocxDoc) (header_row_1based : Nat) : List RowData :=
  (doc.map (fun t => readFinalTable t header_row_1based)).flatten

/-! ## `src/runner.py` — change detection in `sync_control_to_templates` -/

/-- `existing_by_hs[hs_key] = erow`: Python dict insert (replace keeps the
original position). -/
def dInsert (m : List (String × RowData)) (k : String) (v : RowData) :
    List (String × RowData) :=
  if m.any (fun p => p.1 == k) then m.map (fun p => if p.1 == k then (k, v) else p)
  else m ++ [(k, v)]

def buildByHs (rows : List RowData) : List (String × RowData) :=
  rows.foldl (fun m e => dInsert m (normalize_for_compare e.homesite) e) []

def dLookup (m : List (String × RowData)) (k : String) : Option RowData :=
  match m.find? (fun p => p.1 == k) with
  | some p => some p.2
  | none => none

/-- The per-pair comparisons of Check 2: notes always, price / address /
ready-by only when the control value is non-empty. -/
def rowDiffers (crow : ControlRow) (erow : RowData) : Bool :=
  (pyStrip crow.notes != pyStrip erow.notes)
  || (pyStrip crow.price != "" && pyStrip crow.price != pyStrip erow.price)
  || (pyStrip crow.address != "" && pyStrip crow.address != pyStrip erow.address)
  || (pyStrip crow.ready_by != "" && pyStrip crow.ready_by != pyStrip erow.ready_by)

def control_hs_keys (crows : List ControlRow) : List String :=
  crows.map (fun c => normalize_for_compare c.homesite)

/-- Check 1: a homesite in the final file no longer present in CONTROL. -/
def deletionDetected (existing : List (String × RowData)) (crows : List ControlRow) : Bool :=
  existing.any (fun p => !((control_hs_keys crows).contains p.1))

/-- Check 2: a CONTROL row that is new or differs from the final file. -/
def changedRowDetected (existing : List (String × RowData)) (crows : List ControlRow) : Bool :=
  crows.any (fun c =>
    match dLookup existing (normalize_for_compare c.homesite) with
    | none => true
    | some e => rowDiffers c e)

/-- `any_changes` at the end of Step C: the template is rebuilt iff this is
true. -/
def sync_any_changes (existing : List (String × RowData)) (crows : List ControlRow) : Bool :=
  deletionDetected existing crows || changedRowDetected existing crows

/-- The Step D rebuild loop for one floorplan group: successive
`write_to_template` calls with `overwrite_existing=True,
update_only_blank_cells=False, allow_price_update=True, strict_mode=False,
remove_invisible_code=False`; a failed write keeps the current bytes, a
locator exception propagates. -/
def rebuildWrites (doc : DocxDoc) (ic : String) (hdr : Nat) :
    List ControlRow → Except LocErr DocxDoc
  | [] => .ok doc
  | c :: rest =>
      match write_to_template doc ic c true false true false false hdr with
      | .error e => .error e
      | .ok (none, _) => rebuildWrites doc ic hdr rest
      | .ok (some d2, _) => rebuildWrites d2 ic hdr rest

/-- All floorplan groups of one template file, in order. -/
def rebuildDoc (blank : DocxDoc) :
    List (String × Nat × List ControlRow) → Except LocErr DocxDoc
  | [] => .ok blank
  | (ic, hdr, crows) :: rest =>
      match rebuildWrites blank ic hdr crows with
      | .error e => .error e
      | .ok d2 => rebuildDoc d2 rest

/-! ## `src/runner.py` — advisory process lock -/

structure LockInfo where
  pid : Nat
  host : String
  ts : Int
deriving DecidableEq, Repr

/-- The lock file's observable state: missing, unparseable
(`json.JSONDecodeError`/`KeyError`/`ValueError`), or parsed `{pid, host,
timestamp}`. -/
inductive LockFileState where
  | absent
  | corrupt
  | valid (info : LockInfo)
deriving DecidableEq, Repr

def LOCK_TIMEOUT_SECONDS : Int := 600

/-- `acquire_lock`: block on a young parseable lock unless forced; otherwise
overwrite the lock file with the caller's `{pid, host, timestamp}` and
succeed.  `now` carries the caller's pid/host/timestamp; ages are in
seconds. -/
def acquire_lock (st : LockFileState) (now : LockInfo) (force : Bool) :
    Bool × LockFileState :=
  match st with
  | .valid info =>
      if now.ts - info.ts < LOCK_TIMEOUT_SECONDS ∧ force = false then (false, st)
      else (true, .valid now)
  | _ => (true, .valid now)

inductive RunOutcome where
  | abortedNoWrites
  | proceeded (lock : LockFileState)
deriving DecidableEq, Repr

/-- The head of `run_process_new_releases`: `if not acquire_lock(): return`
before any connection or write happens; the rest of the run is abstracted as
`proceeded`. -/
def run_process_new_releases (st : LockFileState) (now : LockInfo) : RunOutcome :=
  let r := acquire_lock st now false
  if r.1 then .proceeded r.2 else .abortedNoWrites

/-! ## Theorems -/

/-- Splitting a day-count addition into stages. -/
theorem addDays_add (ymd : Nat × Nat × Nat) (a b : Nat) :
    addDays ymd (a + b) = addDays (addDays ymd a) b := by
  induction a generalizing ymd with
  | zero => rw [Nat.zero_add]; rfl
  | succ a ih =>
      have h : a + 1 + b = (a + b) + 1 := by omega
      rw [h]
      show addDays (nextDay ymd) (a + b) = _
      rw [ih (nextDay ymd)]
      rfl

/-- C6: the ready-by date parser maps "4/9/2026" to "04/09/2026",
"2026-04-15" to "04/15/2026", "April, 2026" to "04/01/2026" (month-and-year
inputs default to day 01), and "April 15, 2026" to "04/15/2026", producing a
zero-padded MM/DD/YYYY string for each of these input shapes. -/
theorem C6_ready_by_formats :
    parse_ready_by "4/9/2026" = "04/09/2026" ∧
    parse_ready_by "2026-04-15" = "04/15/2026" ∧
    parse_ready_by "April, 2026" = "04/01/2026" ∧
    parse_ready_by "April 15, 2026" = "04/15/2026" := by
  refine ⟨?_, ?_, ?_, ?_⟩ <;> decide

/-- The C5 scenario: a table whose marker cell precedes a five-column header
row and one empty data row. -/
def C5doc : DocxDoc :=
  [[[{ text := "Price Sheet [[PS|COMM=NOVA|FP=02]]" }],
    [{ text := "Site" }, { text := "Price" }, { text := "Address" },
     { text := "Ready-By" }, { text := "Notes" }],
    [{ text := "" }, { text := "" }, { text := "" }, { text := "" }, { text := "" }]]]

def C5rec : ControlRow := { homesite := "28", notes := "unit sold", price := "1045990" }

def C5result : Except LocErr (Option DocxDoc × DocxWriteResult) :=
  write_to_template C5doc "[[PS|COMM=NOVA|FP=02]]" C5rec true false false true true 2

def C5row : DocxRow :=
  match C5result with
  | .ok (some d, _) => (d.getD 0 []).getD 2 []
  | _ => []

def C5action : String :=
  match C5result with
  | .ok (_, res) => res.action
  | _ => ""

/-- C5: writing `Record{unit_id="28", notes="unit sold", price=1045990}` with
`overwriteExisting=true` into a table whose first data row is empty produces
a row with SITE="28", PRICE="$1,045,990", and — because the final notes value
contains "sold" — every cell in that row gets red font, no fill, and
vertical-center plus horizontal-center alignment. -/
theorem C5_end_to_end_sold_row :
    C5row =
      [{ text := "28", font := COLOR_RED, fill := none, vCenter := true, hCenter := true },
       { text := "$1,045,990", font := COLOR_RED, fill := none, vCenter := true, hCenter := true },
       { text := "", font := COLOR_RED, fill := none, vCenter := true, hCenter := true },
       { text := "", font := COLOR_RED, fill := none, vCenter := true, hCenter := true },
       { text := "unit sold", font := COLOR_RED, fill := none, vCenter := true, hCenter := true }] ∧
    C5action = "appended" := by
  constructor <;> decide

/-- The C1 scenario: a writable table (title, header, one blank data row). -/
def C1table : DocxTable :=
  [[{ text := "Floorplan 02" }],
   [{ text := "Site" }, { text := "Price" }, { text := "Ready By" },
    { text := "Address" }, { text := "Notes" }],
   [{ text := "" }, { text := "" }, { text := "" }, { text := "" }, { text := "" }]]

def C1rec : ControlRow :=
  { community := "NOVA", homesite := "28", floorplan := "02", price := "1045990" }

/-- The table after the first `write()` of the record (default policy,
`strict_mode=True`): the record now occupies exactly one data row. -/
def C1afterFirst : DocxTable :=
  ((writeToTable C1table C1rec false true false true 2).1).getD C1table

/-- C1 counterexample: with exactly one data row whose SITE (normalized)
equals the record's unit_id, a second `write()` of the same record under
`strictMode=true` does not fail with `DuplicateUnit` — it succeeds with
action `updated_blanks` and no error. -/
theorem C1_second_write_not_duplicate :
    find_existing_site_rows C1afterFirst
        (build_header_map (get_cell_texts C1afterFirst 1)) C1rec.homesite 2 = [2] ∧
    (writeToTable C1afterFirst C1rec false true false true 2).2.action = "updated_blanks" ∧
    (writeToTable C1afterFirst C1rec false true false true 2).2.error = "" ∧
    ((writeToTable C1afterFirst C1rec false true false true 2).1).isSome = true := by
  refine ⟨?_, ?_, ?_, ?_⟩ <;> decide

/-- C1 (amended): under `strictMode=true` a `write()` against a table whose
data rows already contain exactly one SITE match for the record is not a
`DuplicateUnit` failure: with `updateOnlyBlankCells` it updates blanks, with
`overwriteExisting` it overwrites, and only with both policies off is it
rejected (as `duplicate_site_same_table`); the strict `DuplicateUnit`
failure (`duplicate_site_rows_in_table`) fires exactly when more than one
data row already matches. -/
theorem C1_strict_duplicate_semantics (t : DocxTable) (c : ControlRow)
    (apu ub : Bool) (h1 : Nat)
    (hh : ¬ (h1 - 1 ≥ t.length))
    (hv : validate_headers (build_header_map (get_cell_texts t (h1 - 1))) = []) :
    (∀ r, find_existing_site_rows t (build_header_map (get_cell_texts t (h1 - 1)))
        c.homesite (h1 - 1 + 1) = [r] →
      ((writeToTable t c false true apu true h1).2.action = "updated_blanks" ∧
        ((writeToTable t c false true apu true h1).1).isSome = true) ∧
      ((writeToTable t c true ub apu true h1).2.action = "overwritten" ∧
        ((writeToTable t c true ub apu true h1).1).isSome = true) ∧
      ((writeToTable t c false false apu true h1).1 = none ∧
        (writeToTable t c false false apu true h1).2.action = "duplicate_site_same_table")) ∧
    (∀ r1 r2 rest, find_existing_site_rows t (build_header_map (get_cell_texts t (h1 - 1)))
        c.homesite (h1 - 1 + 1) = r1 :: r2 :: rest →
      ∀ ow ub2, (writeToTable t c ow ub2 apu true h1).1 = none ∧
        (writeToTable t c ow ub2 apu true h1).2.action = "duplicate_site_rows_in_table") := by
  have hv2 : ¬ (validate_headers (build_header_map (get_cell_texts t (h1 - 1))) ≠ []) :=
    fun hcon => hcon hv
  constructor
  · intro r hex
    refine ⟨?_, ?_, ?_⟩ <;> simp [writeToTable, hh, hv, hex]
  · intro r1 r2 rest hex ow ub2
    have hlen : 1 < (find_existing_site_rows t
        (build_header_map (get_cell_texts t (h1 - 1))) c.homesite (h1 - 1 + 1)).length := by
      rw [hex]; simp only [List.length_cons]; omega
    constructor <;> simp [writeToTable, hh, hv, hlen]

/-- A table in which the record's unit already occupies two data rows. -/
def C1dupTable : DocxTable :=
  [[{ text := "Floorplan 02" }],
   [{ text := "Site" }, { text := "Price" }, { text := "Ready By" },
    { text := "Address" }, { text := "Notes" }],
   [{ text := "28" }, { text := "" }, { text := "" }, { text := "" }, { text := "" }],
   [{ text := "28" }, { text := "" }, { text := "" }, { text := "" }, { text := "" }]]

/-- C1 witness: the amended duplicate semantics at concrete tables. -/
theorem C1_strict_duplicate_semantics_witness :
    (writeToTable C1afterFirst C1rec false true false true 2).2.action = "updated_blanks" ∧
    (writeToTable C1afterFirst C1rec false false false true 2).2.action = "duplicate_site_same_table" ∧
    (writeToTable C1dupTable C1rec false true false true 2).1 = none ∧
    (writeToTable C1dupTable C1rec false true false true 2).2.action = "duplicate_site_rows_in_table" := by
  have h1 := C1_strict_duplicate_semantics C1afterFirst C1rec false false 2
    (by decide) (by decide)
  have h2 := C1_strict_duplicate_semantics C1dupTable C1rec false false 2
    (by decide) (by decide)
  have ha := h1.1 2 (by decide)
  have hb := h2.2 2 3 [] (by decide) false true
  exact ⟨ha.1.1, ha.2.2.2, hb.1, hb.2⟩

/-- C9: a parseable lock younger than the 600-second threshold blocks
`acquire_lock` (which returns `False`, and the run aborts before any writes);
a lock at least that old, a forced acquisition, or an unparseable lock file
is silently reclaimed — the lock file is overwritten with the caller's
`{pid, host, timestamp}` and `acquire_lock` returns `True`. -/
theorem C9_lock_acquisition (st : LockFileState) (now : LockInfo) (force : Bool) :
    (∀ info, st = .valid info → now.ts - info.ts < LOCK_TIMEOUT_SECONDS → force = false →
      acquire_lock st now force = (false, st) ∧
      run_process_new_releases st now = .abortedNoWrites) ∧
    (∀ info, st = .valid info → LOCK_TIMEOUT_SECONDS ≤ now.ts - info.ts ∨ force = true →
      acquire_lock st now force = (true, .valid now)) ∧
    (st = .corrupt → acquire_lock st now force = (true, .valid now)) ∧
    LOCK_TIMEOUT_SECONDS = 600 := by
  refine ⟨?_, ?_, ?_, rfl⟩
  · rintro info rfl hage hforce
    subst hforce
    constructor
    · simp [acquire_lock, hage]
    · simp [run_process_new_releases, acquire_lock, hage]
  · rintro info rfl hcond
    have hneg : ¬ (now.ts - info.ts < LOCK_TIMEOUT_SECONDS ∧ force = false) := by
      rintro ⟨hlt, hff⟩
      rcases hcond with hold | hf
      · omega
      · rw [hf] at hff
        exact absurd hff (by decide)
    simp [acquire_lock, hneg]
  · rintro rfl
    simp [acquire_lock]

/-- C9 witness: the lock semantics at concrete states. -/
theorem C9_lock_acquisition_witness :
    acquire_lock (.valid ⟨1, "a", 1000⟩) ⟨2, "b", 1500⟩ false
      = (false, .valid ⟨1, "a", 1000⟩) ∧
    run_process_new_releases (.valid ⟨1, "a", 1000⟩) ⟨2, "b", 1500⟩ = .abortedNoWrites ∧
    acquire_lock (.valid ⟨1, "a", 1000⟩) ⟨2, "b", 1600⟩ false
      = (true, .valid ⟨2, "b", 1600⟩) ∧
    acquire_lock .corrupt ⟨2, "b", 1600⟩ true = (true, .valid ⟨2, "b", 1600⟩) := by
  have h1 := C9_lock_acquisition (.valid ⟨1, "a", 1000⟩) ⟨2, "b", 1500⟩ false
  have h2 := C9_lock_acquisition (.valid ⟨1, "a", 1000⟩) ⟨2, "b", 1600⟩ false
  have h3 := C9_lock_acquisition .corrupt ⟨2, "b", 1600⟩ true
  have a1 := h1.1 ⟨1, "a", 1000⟩ rfl (by decide) rfl
  have a2 := h2.2.1 ⟨1, "a", 1000⟩ rfl (Or.inl (by decide))
  have a3 := h3.2.2.1 rfl
  exact ⟨a1.1, a1.2, a2, a3⟩

/-- C10: an input string that parses as a number strictly between 1 and
200000 is interpreted as a Google Sheets serial date counted from the
epoch 1899-12-30 and returned as MM/DD/YYYY. -/
theorem C10_sheets_serial (s : String) (n : PyNum)
    (hp : pyFloat (pyStrip s) = some n) (hr : serialInRange n = true) :
    parse_ready_by s = fmtDate (addDays SHEETS_EPOCH n.ip) := by
  have hne : ¬ (pyStrip s = "") := by
    intro h
    rw [h, show pyFloat "" = none from rfl] at hp
    exact Option.noConfusion hp
  simp [parse_ready_by, hne, hp, hr]

set_option maxRecDepth 8000 in
/-- C10 witness: the bare year "2026" parses as serial 2026 and becomes
07/18/1905 rather than being passed through. -/
theorem C10_sheets_serial_witness :
    pyFloat (pyStrip "2026") = some ⟨false, 2026, false⟩ ∧
    serialInRange ⟨false, 2026, false⟩ = true ∧
    parse_ready_by "2026" = "07/18/1905" ∧
    parse_ready_by "2026" ≠ "2026" := by
  have hp : pyFloat (pyStrip "2026") = some ⟨false, 2026, false⟩ := by decide
  have hr : serialInRange (⟨false, 2026, false⟩ : PyNum) = true := by decide
  have h := C10_sheets_serial "2026" ⟨false, 2026, false⟩ hp hr
  have hd : addDays SHEETS_EPOCH 2026 = (1905, 7, 18) := by
    have e1 : (2026 : Nat) = 1000 + 1000 + 26 := by norm_num
    rw [e1, addDays_add, addDays_add]
    have s1 : addDays SHEETS_EPOCH 1000 = (1902, 9, 26) := by decide
    rw [s1]
    have s2 : addDays (1902, 9, 26) 1000 = (1905, 6, 22) := by decide
    rw [s2]
    decide
  refine ⟨hp, hr, ?_, ?_⟩
  · rw [h, hd]
    decide
  · rw [h, hd]
    decide

/-! ### String-stripping lemmas -/

theorem toList_mk (l : List Char) : (String.mk l).toList = l := rfl

theorem dropWhile_head_false (p : Char → Bool) :
    ∀ (l : List Char) (c : Char), (l.dropWhile p).head? = some c → p c = false := by
  intro l
  induction l with
  | nil => intro c h; simp [List.dropWhile] at h
  | cons a rest ih =>
      intro c h
      rw [List.dropWhile_cons] at h
      by_cases hp : p a = true
      · rw [if_pos hp] at h
        exact ih c h
      · rw [if_neg hp] at h
        simp only [List.head?_cons, Option.some.injEq] at h
        rw [← h]
        exact Bool.eq_false_iff.mpr hp

theorem getLast?_dropWhile (p : Char → Bool) :
    ∀ (l : List Char) (c : Char), (l.dropWhile p).getLast? = some c → l.getLast? = some c := by
  intro l
  induction l with
  | nil => intro c h; simp [List.dropWhile] at h
  | cons a rest ih =>
      intro c h
      rw [List.dropWhile_cons] at h
      by_cases hp : p a = true
      · rw [if_pos hp] at h
        have h2 := ih c h
        have hne : rest ≠ [] := by
          intro he
          rw [he] at h2
          simp at h2
        obtain ⟨b, bs, rfl⟩ := List.exists_cons_of_ne_nil hne
        rw [List.getLast?_cons_cons]
        exact h2
      · rw [if_neg hp] at h
        exact h

theorem dropWhile_eq_self_of_head (p : Char → Bool) (l : List Char)
    (h : ∀ c, l.head? = some c → p c = false) : l.dropWhile p = l := by
  cases l with
  | nil => rfl
  | cons a rest =>
      rw [List.dropWhile_cons, if_neg]
      rw [h a rfl]
      simp

theorem stripList_head (l : List Char) (c : Char)
    (h : (stripList l).head? = some c) : pyIsSpace c = false := by
  unfold stripList at h
  rw [List.head?_reverse] at h
  have h2 := getLast?_dropWhile pyIsSpace _ c h
  rw [List.getLast?_reverse] at h2
  exact dropWhile_head_false pyIsSpace _ c h2

theorem stripList_last (l : List Char) (c : Char)
    (h : (stripList l).getLast? = some c) : pyIsSpace c = false := by
  unfold stripList at h
  rw [List.getLast?_reverse] at h
  exact dropWhile_head_false pyIsSpace _ c h

theorem stripList_idem (l : List Char) : stripList (stripList l) = stripList l := by
  have h1 : (stripList l).dropWhile pyIsSpace = stripList l :=
    dropWhile_eq_self_of_head _ _ (fun c hc => stripList_head l c hc)
  have h2 : (stripList l).reverse.dropWhile pyIsSpace = (stripList l).reverse := by
    refine dropWhile_eq_self_of_head _ _ (fun c hc => ?_)
    rw [List.head?_reverse] at hc
    exact stripList_last l c hc
  show ((((stripList l).dropWhile pyIsSpace).reverse).dropWhile pyIsSpace).reverse = stripList l
  rw [h1, h2, List.reverse_reverse]

theorem pyStrip_idem (s : String) : pyStrip (pyStrip s) = pyStrip s := by
  unfold pyStrip
  rw [toList_mk, stripList_idem]

theorem dropWhile_eq_self_of_all (p : Char → Bool) (l : List Char)
    (h : ∀ c ∈ l, p c = false) : l.dropWhile p = l := by
  refine dropWhile_eq_self_of_head p l (fun c hc => ?_)
  exact h c (by cases l with
    | nil => simp at hc
    | cons a rest => simp only [List.head?_cons, Option.some.injEq] at hc; rw [← hc]; simp)

theorem stripList_eq_self (l : List Char) (h : ∀ c ∈ l, pyIsSpace c = false) :
    stripList l = l := by
  unfold stripList
  rw [dropWhile_eq_self_of_all pyIsSpace l h,
      dropWhile_eq_self_of_all pyIsSpace l.reverse (fun c hc => h c (List.mem_reverse.mp hc)),
      List.reverse_reverse]

theorem pyStrip_eq_self (s : String) (h : ∀ c ∈ s.toList, pyIsSpace c = false) :
    pyStrip s = s := by
  unfold pyStrip
  rw [stripList_eq_self s.toList h]
  cases s
  rfl

theorem dropWhile_eq_nil_of_all (p : Char → Bool) (l : List Char)
    (h : ∀ c ∈ l, p c = true) : l.dropWhile p = [] := by
  induction l with
  | nil => rfl
  | cons a rest ih =>
      rw [List.dropWhile_cons, if_pos (h a (by simp))]
      exact ih (fun c hc => h c (by simp [hc]))

theorem pyStrip_of_all_space (s : String) (h : ∀ c ∈ s.toList, pyIsSpace c = true) :
    pyStrip s = "" := by
  unfold pyStrip stripList
  rw [dropWhile_eq_nil_of_all pyIsSpace s.toList h]
  rfl

/-! ### Digit-rendering lemmas -/

theorem digitChar_facts :
    ∀ d < 10, digitVal (digitChar d) = d ∧ isDigitChar (digitChar d) = true := by
  decide

theorem isDigitChar_not_space {c : Char} (h : isDigitChar c = true) :
    pyIsSpace c = false := by
  cases hs : pyIsSpace c
  · rfl
  · exfalso
    simp only [pyIsSpace, Bool.or_eq_true, beq_iff_eq] at hs
    rcases hs with ((((rfl | rfl) | rfl) | rfl) | rfl) | rfl <;> exact absurd h (by decide)

theorem isDigitChar_ne_special {c : Char} (h : isDigitChar c = true) :
    c ≠ '$' ∧ c ≠ ',' ∧ c ≠ '-' ∧ c ≠ '+' ∧ c ≠ '.' := by
  refine ⟨?_, ?_, ?_, ?_, ?_⟩ <;> (rintro rfl; exact absurd h (by decide))

theorem natDigitsAux_all_digit :
    ∀ (fuel n : Nat), ∀ c ∈ natDigitsAux fuel n, isDigitChar c = true := by
  intro fuel
  induction fuel with
  | zero => intro n c hc; simp [natDigitsAux] at hc
  | succ fuel ih =>
      intro n c hc
      cases n with
      | zero => simp [natDigitsAux] at hc
      | succ n =>
          simp only [natDigitsAux, List.mem_cons] at hc
          rcases hc with rfl | hc
          · exact (digitChar_facts _ (Nat.mod_lt _ (by omega))).2
          · exact ih _ c hc

theorem natToDigits_all_digit (n : Nat) : ∀ c ∈ natToDigits n, isDigitChar c = true := by
  intro c hc
  unfold natToDigits at hc
  by_cases h0 : n = 0
  · rw [if_pos h0] at hc
    simp only [List.mem_singleton] at hc
    rw [hc]
    decide
  · rw [if_neg h0] at hc
    exact natDigitsAux_all_digit n n c (List.mem_reverse.mp hc)

theorem natToDigits_ne_nil (n : Nat) : natToDigits n ≠ [] := by
  unfold natToDigits
  by_cases h0 : n = 0
  · rw [if_pos h0]; simp
  · rw [if_neg h0]
    simp only [ne_eq, List.reverse_eq_nil_iff]
    unfold natDigitsLE
    cases hn : n with
    | zero => exact absurd hn h0
    | succ m => simp [natDigitsAux]

theorem valLE_natDigitsAux : ∀ (fuel n : Nat), n ≤ fuel → valLE (natDigitsAux fuel n) = n := by
  intro fuel
  induction fuel with
  | zero =>
      intro n h
      interval_cases n
      rfl
  | succ fuel ih =>
      intro n h
      cases n with
      | zero => rfl
      | succ n =>
          show valLE (digitChar ((n + 1) % 10) :: natDigitsAux fuel ((n + 1) / 10)) = n + 1
          have hd : (n + 1) % 10 < 10 := Nat.mod_lt _ (by omega)
          have hfuel : (n + 1) / 10 ≤ fuel := by
            have := Nat.div_lt_self (Nat.succ_pos n) (by omega : 1 < 10)
            omega
          show digitVal (digitChar ((n + 1) % 10)) + 10 * valLE (natDigitsAux fuel ((n + 1) / 10)) = n + 1
          rw [(digitChar_facts _ hd).1, ih _ hfuel]
          omega

theorem digitsToNat_natToDigits (n : Nat) : digitsToNat (natToDigits n) = n := by
  unfold natToDigits
  by_cases h0 : n = 0
  · rw [if_pos h0, h0]
    decide
  · rw [if_neg h0]
    unfold digitsToNat
    rw [List.reverse_reverse]
    exact valLE_natDigitsAux n n le_rfl

/-! ### Thousands-grouping and parse round-trip lemmas -/

theorem groupLE_filter : ∀ (l : List Char) (k : Nat),
    (∀ c ∈ l, isDigitChar c = true) →
    (groupLE l k).filter (fun c => !((['$', ','] : List Char).contains c)) = l := by
  intro l
  induction l with
  | nil => intro k _; cases k <;> rfl
  | cons c rest ih =>
      intro k h
      have hc := h c (by simp)
      have hne := isDigitChar_ne_special hc
      have hkeep : (!((['$', ','] : List Char).contains c)) = true := by
        simp [List.contains, hne.1, hne.2.1]
      have hrest : ∀ x ∈ rest, isDigitChar x = true := fun x hx => h x (by simp [hx])
      cases k with
      | zero =>
          show (',' :: c :: groupLE rest 2).filter _ = c :: rest
          rw [List.filter_cons, List.filter_cons]
          simp only [hkeep, if_true]
          rw [ih 2 hrest]
          rfl
      | succ k =>
          show (c :: groupLE rest k).filter _ = c :: rest
          rw [List.filter_cons]
          simp only [hkeep, if_true]
          rw [ih k hrest]

theorem groupLE_chars : ∀ (l : List Char) (k : Nat), ∀ c ∈ groupLE l k, c ∈ l ∨ c = ',' := by
  intro l
  induction l with
  | nil => intro k c hc; cases k <;> simp [groupLE] at hc
  | cons a rest ih =>
      intro k c hc
      cases k with
      | zero =>
          simp only [groupLE, List.mem_cons] at hc
          rcases hc with rfl | rfl | hc
          · exact Or.inr rfl
          · exact Or.inl (by simp)
          · rcases ih 2 c hc with hm | hcomma
            · exact Or.inl (by simp [hm])
            · exact Or.inr hcomma
      | succ k =>
          simp only [groupLE, List.mem_cons] at hc
          rcases hc with rfl | hc
          · exact Or.inl (by simp)
          · rcases ih k c hc with hm | hcomma
            · exact Or.inl (by simp [hm])
            · exact Or.inr hcomma

theorem mk_append (a b : List Char) : String.mk a ++ String.mk b = String.mk (a ++ b) := rfl

theorem mk_eq_iff (a b : List Char) : String.mk a = String.mk b ↔ a = b := by
  constructor
  · intro h
    exact congrArg String.toList h
  · intro h
    rw [h]

/-- Characters of the grouped magnitude: digits and commas only. -/
theorem natGrouped_chars (n : Nat) :
    ∀ c ∈ (groupLE (natToDigits n).reverse 3).reverse, isDigitChar c = true ∨ c = ',' := by
  intro c hc
  rw [List.mem_reverse] at hc
  rcases groupLE_chars _ 3 c hc with hm | hcomma
  · exact Or.inl (natToDigits_all_digit n c (List.mem_reverse.mp hm))
  · exact Or.inr hcomma

/-- Parsing a plain digit string. -/
theorem pyFloat_of_digits (l : List Char) (hne : l ≠ [])
    (hd : ∀ c ∈ l, isDigitChar c = true) :
    pyFloat (String.mk l) = some ⟨false, digitsToNat l, false⟩ := by
  obtain ⟨d, ds, rfl⟩ := List.exists_cons_of_ne_nil hne
  have hdd := hd d (by simp)
  have hspec := isDigitChar_ne_special hdd
  have hhead : (d :: ds).head? = some d := rfl
  have hneg : ((d :: ds).head? == some '-') = false := by
    simp only [List.head?_cons, beq_eq_false_iff_ne, ne_eq, Option.some.injEq]
    exact hspec.2.2.1
  have hcond : ¬ ((d :: ds).head? = some '-' ∨ (d :: ds).head? = some '+') := by
    rintro (h | h) <;> simp only [List.head?_cons, Option.some.injEq] at h
    · exact hspec.2.2.1 h
    · exact hspec.2.2.2.1 h
  have htake : (d :: ds).takeWhile isDigitChar = d :: ds :=
    List.takeWhile_eq_self_iff.mpr hd
  have hdrop : (d :: ds).dropWhile isDigitChar = [] :=
    dropWhile_eq_nil_of_all isDigitChar _ hd
  simp only [pyFloat, toList_mk, hneg, if_neg hcond, htake, hdrop]
  rw [if_neg (by simp : ¬ (d :: ds) = [])]

/-- Parsing a minus sign followed by digits. -/
theorem pyFloat_of_neg_digits (l : List Char) (hne : l ≠ [])
    (hd : ∀ c ∈ l, isDigitChar c = true) :
    pyFloat (String.mk ('-' :: l)) = some ⟨true, digitsToNat l, false⟩ := by
  have htake : l.takeWhile isDigitChar = l := List.takeWhile_eq_self_iff.mpr hd
  have hdrop : l.dropWhile isDigitChar = [] := dropWhile_eq_nil_of_all isDigitChar _ hd
  simp only [pyFloat, toList_mk, List.head?_cons, Option.some.injEq, eq_self_iff_true,
    true_or, if_true, List.tail_cons, htake, hdrop, beq_self_eq_true]
  rw [if_neg hne]

/-- `format_price` is a fixpoint on its own numeric output. -/
theorem format_price_fixpoint (i : Int) :
    format_price ("$" ++ intGrouped i) = "$" ++ intGrouped i := by
  set m := i.natAbs with hm
  set grouped := (groupLE (natToDigits m).reverse 3).reverse with hg
  have hgchars := natGrouped_chars m
  rw [← hg] at hgchars
  have hgspace : ∀ c ∈ grouped, pyIsSpace c = false := by
    intro c hc
    rcases hgchars c hc with hdig | rfl
    · exact isDigitChar_not_space hdig
    · decide
  have hfg : grouped.filter (fun c => !((['$', ','] : List Char).contains c)) = natToDigits m := by
    rw [hg, List.filter_reverse, groupLE_filter _ 3
      (fun c hc => natToDigits_all_digit m c (List.mem_reverse.mp hc)),
      List.reverse_reverse]
  have hstrip2 : pyStrip (String.mk (natToDigits m)) = String.mk (natToDigits m) :=
    pyStrip_eq_self _ (by
      rw [toList_mk]
      exact fun c hc => isDigitChar_not_space (natToDigits_all_digit m c hc))
  by_cases hneg : i < 0
  · have hout : ("$" ++ intGrouped i) = String.mk ('$' :: '-' :: grouped) := by
      show "$" ++ (if i < 0 then "-" ++ natGrouped i.natAbs else natGrouped i.natAbs) = _
      rw [if_pos hneg]
      rfl
    rw [hout]
    have hnospace : ∀ c ∈ ('$' :: '-' :: grouped), pyIsSpace c = false := by
      intro c hc
      simp only [List.mem_cons] at hc
      rcases hc with rfl | rfl | hc
      · decide
      · decide
      · exact hgspace c hc
    have hstrip : pyStrip (String.mk ('$' :: '-' :: grouped)) = String.mk ('$' :: '-' :: grouped) :=
      pyStrip_eq_self _ (by rw [toList_mk]; exact hnospace)
    have hne0 : ¬ (String.mk ('$' :: '-' :: grouped) = "") := by
      rw [show ("" : String) = String.mk [] from rfl, mk_eq_iff]
      simp
    have hclean : removeChars (String.mk ('$' :: '-' :: grouped)) ['$', ','] =
        String.mk ('-' :: natToDigits m) := by
      show String.mk (('$' :: '-' :: grouped).filter _) = _
      rw [mk_eq_iff, List.filter_cons, if_neg (by decide), List.filter_cons,
        if_pos (by decide), hfg]
    have hdigchars : ∀ c ∈ ('-' :: natToDigits m), pyIsSpace c = false := by
      intro c hc
      simp only [List.mem_cons] at hc
      rcases hc with rfl | hc
      · decide
      · exact isDigitChar_not_space (natToDigits_all_digit m c hc)
    have hstripM : pyStrip (String.mk ('-' :: natToDigits m)) = String.mk ('-' :: natToDigits m) :=
      pyStrip_eq_self _ (by rw [toList_mk]; exact hdigchars)
    have hparse : pyFloat (String.mk ('-' :: natToDigits m)) = some ⟨true, m, false⟩ := by
      rw [pyFloat_of_neg_digits (natToDigits m) (natToDigits_ne_nil m) (natToDigits_all_digit m),
        digitsToNat_natToDigits]
    have htoint : (⟨true, m, false⟩ : PyNum).toInt = i := by
      show -(m : Int) = i
      omega
    show (if pyStrip (String.mk ('$' :: '-' :: grouped)) = "" then "" else _) = _
    rw [if_neg (by rw [hstrip]; exact hne0)]
    simp only [hstrip, hclean, hstripM, hparse, htoint]
    rw [hout]
  · have hout : ("$" ++ intGrouped i) = String.mk ('$' :: grouped) := by
      show "$" ++ (if i < 0 then "-" ++ natGrouped i.natAbs else natGrouped i.natAbs) = _
      rw [if_neg hneg]
      rfl
    rw [hout]
    have hnospace : ∀ c ∈ ('$' :: grouped), pyIsSpace c = false := by
      intro c hc
      simp only [List.mem_cons] at hc
      rcases hc with rfl | hc
      · decide
      · exact hgspace c hc
    have hstrip : pyStrip (String.mk ('$' :: grouped)) = String.mk ('$' :: grouped) :=
      pyStrip_eq_self _ (by rw [toList_mk]; exact hnospace)
    have hne0 : ¬ (String.mk ('$' :: grouped) = "") := by
      rw [show ("" : String) = String.mk [] from rfl, mk_eq_iff]
      simp
    have hclean : removeChars (String.mk ('$' :: grouped)) ['$', ','] =
        String.mk (natToDigits m) := by
      show String.mk (('$' :: grouped).filter _) = _
      rw [mk_eq_iff, List.filter_cons, if_neg (by decide), hfg]
    have hparse : pyFloat (String.mk (natToDigits m)) = some ⟨false, m, false⟩ := by
      rw [pyFloat_of_digits (natToDigits m) (natToDigits_ne_nil m) (natToDigits_all_digit m),
        digitsToNat_natToDigits]
    have htoint : (⟨false, m, false⟩ : PyNum).toInt = i := by
      show (m : Int) = i
      omega
    show (if pyStrip (String.mk ('$' :: grouped)) = "" then "" else _) = _
    rw [if_neg (by rw [hstrip]; exact hne0)]
    simp only [hstrip, hclean, hstrip2, hparse, htoint]
    rw [hout]

/-- C7: price formatting is idempotent — `format_price (format_price x)`
equals `format_price x` for every input string — and the empty string (or
any whitespace-only string) formats to the empty string. -/
theorem C7_format_price_idempotent (x w : String)
    (hw : ∀ c ∈ w.toList, pyIsSpace c = true) :
    format_price (format_price x) = format_price x ∧ format_price w = "" := by
  constructor
  · by_cases h0 : pyStrip x = ""
    · have hx : format_price x = "" := by
        unfold format_price
        rw [if_pos h0]
      rw [hx]
      decide
    · cases hp : pyFloat (pyStrip (removeChars (pyStrip x) ['$', ','])) with
      | none =>
          have hx : format_price x = pyStrip x := by
            unfold format_price
            rw [if_neg h0]
            simp only [hp]
          rw [hx]
          unfold format_price
          rw [pyStrip_idem, if_neg h0]
          simp only [pyStrip_idem, hp]
      | some num =>
          have hx : format_price x = "$" ++ intGrouped num.toInt := by
            unfold format_price
            rw [if_neg h0]
            simp only [hp]
          rw [hx, format_price_fixpoint]
  · unfold format_price
    rw [if_pos (pyStrip_of_all_space w hw)]

/-- C7 witness: idempotence at a concrete messy price, the empty string, and
a whitespace-only string. -/
theorem C7_format_price_idempotent_witness :
    format_price (format_price "1,234,567.89") = format_price "1,234,567.89" ∧
    format_price "" = "" ∧
    format_price "  " = "" ∧
    format_price "1,234,567.89" = "$1,234,567" := by
  have h1 := C7_format_price_idempotent "1,234,567.89" "" (by decide)
  have h2 := C7_format_price_idempotent "x" "  " (by decide)
  exact ⟨h1.1, h1.2, h2.2, by decide⟩

/-! ### Locator boundary-match characterisation -/

theorem chopLead_iff : ∀ (a l r : List Char), chopLead a l = some r ↔ l = a ++ r := by
  intro a
  induction a with
  | nil =>
      intro l r
      simp [chopLead]
  | cons n ns ih =>
      intro l r
      cases l with
      | nil =>
          simp [chopLead]
      | cons h hs =>
          show (if n = h then chopLead ns hs else none) = some r ↔ _
          by_cases hnh : n = h
          · rw [if_pos hnh, ih hs r, hnh]
            simp
          · rw [if_neg hnh]
            constructor
            · intro hcon
              exact Option.noConfusion hcon
            · intro hcon
              injection hcon with h1 _
              exact absurd h1.symm hnh

theorem boundaryAt_iff (l core : List Char) :
    boundaryAt l core = true ↔
    ∃ suf, l = core ++ suf ∧ (∀ c, suf.head? = some c → isAsciiAlnum c = false) := by
  unfold boundaryAt
  cases hch : chopLead core l with
  | none =>
      constructor
      · intro hcon
        exact Bool.noConfusion hcon
      · rintro ⟨suf, hl, _⟩
        rw [(chopLead_iff core l suf).mpr hl] at hch
        exact Option.noConfusion hch
  | some rem =>
      have hrem : l = core ++ rem := (chopLead_iff core l rem).mp hch
      cases rem with
      | nil =>
          constructor
          · intro _
            exact ⟨[], hrem, fun c hc => by simp at hc⟩
          · intro _
            rfl
      | cons c rest =>
          constructor
          · intro hb
            refine ⟨c :: rest, hrem, fun c2 hc2 => ?_⟩
            simp only [List.head?_cons, Option.some.injEq] at hc2
            rw [← hc2]
            simpa using hb
          · rintro ⟨suf, hl, hcond⟩
            have hsuf : suf = c :: rest := by
              have h1 := (chopLead_iff core l suf).mpr hl
              rw [hch] at h1
              injection h1 with h2
              exact h2.symm
            subst hsuf
            simpa using hcond c rfl

theorem boundaryContainsList_iff (core : List Char) : ∀ (hay : List Char),
    boundaryContainsList hay core = true ↔
    ∃ pre suf, hay = pre ++ core ++ suf ∧
      (∀ c, suf.head? = some c → isAsciiAlnum c = false) := by
  intro hay
  induction hay with
  | nil =>
      show boundaryAt [] core = true ↔ _
      rw [boundaryAt_iff]
      constructor
      · rintro ⟨suf, hl, hcond⟩
        exact ⟨[], suf, by simpa using hl, hcond⟩
      · rintro ⟨pre, suf, hl, hcond⟩
        refine ⟨suf, ?_, hcond⟩
        have hpre : pre = [] := by
          cases pre with
          | nil => rfl
          | cons p ps => simp at hl
        rw [hpre] at hl
        simpa using hl
  | cons h rest ih =>
      show (boundaryAt (h :: rest) core || boundaryContainsList rest core) = true ↔ _
      rw [Bool.or_eq_true, boundaryAt_iff, ih]
      constructor
      · rintro (⟨suf, hl, hcond⟩ | ⟨pre, suf, hl, hcond⟩)
        · exact ⟨[], suf, by simpa using hl, hcond⟩
        · exact ⟨h :: pre, suf, by simp [hl], hcond⟩
      · rintro ⟨pre, suf, hl, hcond⟩
        cases pre with
        | nil =>
            left
            exact ⟨suf, by simpa using hl, hcond⟩
        | cons p ps =>
            right
            simp only [List.cons_append, List.cons.injEq] at hl
            exact ⟨ps, suf, hl.2, hcond⟩

/-- A document whose marker cell carries the broken form of the code (closing
delimiter lost, followed by a space). -/
def C3doc1 : DocxDoc :=
  [[[{ text := "x" }], [{ text := "[[PS|COMM=NOVA|FP=02 extra" }]]]

/-- A document where the code's core is followed by an alphanumeric
character. -/
def C3doc2 : DocxDoc :=
  [[[{ text := "x" }], [{ text := "[[PS|COMM=NOVA|FP=02X]]" }]]]

/-- C3: when no cell contains the `]]`-terminated marker verbatim, locate
retries with the delimiter stripped and matches the core as a leading
occurrence whose next character is not alphanumeric: a cell holding the core
followed by a space is located, while a cell where the core is immediately
followed by an alphanumeric character is not matched. -/
theorem C3_locator_fallback :
    (∀ (hay core : List Char),
      boundaryContainsList hay core = true ↔
      ∃ pre suf, hay = pre ++ core ++ suf ∧
        (∀ c, suf.head? = some c → isAsciiAlnum c = false)) ∧
    exactMatches C3doc1 "[[PS|COMM=NOVA|FP=02]]" = [] ∧
    find_table_by_invisible_code C3doc1 "[[PS|COMM=NOVA|FP=02]]" =
      .ok ⟨0, 1, 0, "[[PS|COMM=NOVA|FP=02 extra"⟩ ∧
    find_table_by_invisible_code C3doc2 "[[PS|COMM=NOVA|FP=02]]" = .error .notFound := by
  refine ⟨fun hay core => boundaryContainsList_iff core hay, by decide, rfl, rfl⟩

/-- C3 witness: the boundary characterisation applied to the broken marker
cell, plus the no-boundary document's lookup failure. -/
theorem C3_locator_fallback_witness :
    boundaryContainsList "[[PS|COMM=NOVA|FP=02 extra".toList "[[PS|COMM=NOVA|FP=02".toList = true ∧
    find_table_by_invisible_code C3doc2 "[[PS|COMM=NOVA|FP=02]]" = .error .notFound := by
  refine ⟨(C3_locator_fallback.1 _ _).mpr ⟨[], " extra".toList, by decide, fun c hc => ?_⟩,
    C3_locator_fallback.2.2.2⟩
  have h0 : (" extra".toList).head? = some ' ' := rfl
  rw [h0] at hc
  injection hc with hc2
  rw [← hc2]
  decide

/-! ### Scan-order lemmas for the locator -/

/-- Document scan order: earlier table, then earlier row, then earlier cell. -/
def lexLt (a b : TableMatch) : Prop :=
  a.table_index < b.table_index ∨
  (a.table_index = b.table_index ∧ (a.cell_row < b.cell_row ∨
    (a.cell_row = b.cell_row ∧ a.cell_col < b.cell_col)))

theorem scanCellsRow_mem : ∀ (row : DocxRow) (ti ri ci : Nat) (m : TableMatch),
    m ∈ scanCellsRow ti ri ci row →
    m.table_index = ti ∧ m.cell_row = ri ∧ ci ≤ m.cell_col := by
  intro row
  induction row with
  | nil => intro ti ri ci m hm; simp [scanCellsRow] at hm
  | cons c cs ih =>
      intro ti ri ci m hm
      simp only [scanCellsRow, List.mem_cons] at hm
      rcases hm with rfl | hm
      · exact ⟨rfl, rfl, le_refl _⟩
      · have h := ih ti ri (ci + 1) m hm
        exact ⟨h.1, h.2.1, by omega⟩

theorem scanCellsRow_pairwise : ∀ (row : DocxRow) (ti ri ci : Nat),
    (scanCellsRow ti ri ci row).Pairwise lexLt := by
  intro row
  induction row with
  | nil => intro ti ri ci; simp [scanCellsRow]
  | cons c cs ih =>
      intro ti ri ci
      simp only [scanCellsRow, List.pairwise_cons]
      refine ⟨fun m hm => ?_, ih ti ri (ci + 1)⟩
      have h := scanCellsRow_mem cs ti ri (ci + 1) m hm
      refine Or.inr ⟨h.1.symm, Or.inr ⟨h.2.1.symm, ?_⟩⟩
      show ci < m.cell_col
      omega

theorem scanCellsTable_mem : ∀ (tbl : DocxTable) (ti ri : Nat) (m : TableMatch),
    m ∈ scanCellsTable ti ri tbl → m.table_index = ti ∧ ri ≤ m.cell_row := by
  intro tbl
  induction tbl with
  | nil => intro ti ri m hm; simp [scanCellsTable] at hm
  | cons r rs ih =>
      intro ti ri m hm
      simp only [scanCellsTable, List.mem_append] at hm
      rcases hm with hm | hm
      · have h := scanCellsRow_mem r ti ri 0 m hm
        exact ⟨h.1, by omega⟩
      · have h := ih ti (ri + 1) m hm
        exact ⟨h.1, by omega⟩

theorem scanCellsTable_pairwise : ∀ (tbl : DocxTable) (ti ri : Nat),
    (scanCellsTable ti ri tbl).Pairwise lexLt := by
  intro tbl
  induction tbl with
  | nil => intro ti ri; simp [scanCellsTable]
  | cons r rs ih =>
      intro ti ri
      rw [scanCellsTable, List.pairwise_append]
      refine ⟨scanCellsRow_pairwise r ti ri 0, ih ti (ri + 1), fun a ha b hb => ?_⟩
      have h1 := scanCellsRow_mem r ti ri 0 a ha
      have h2 := scanCellsTable_mem rs ti (ri + 1) b hb
      exact Or.inr ⟨by rw [h1.1, h2.1], Or.inl (by omega)⟩

theorem scanCellsDoc_mem : ∀ (ds : DocxDoc) (ti : Nat) (m : TableMatch),
    m ∈ scanCellsDoc ti ds → ti ≤ m.table_index := by
  intro ds
  induction ds with
  | nil => intro ti m hm; simp [scanCellsDoc] at hm
  | cons t ts ih =>
      intro ti m hm
      simp only [scanCellsDoc, List.mem_append] at hm
      rcases hm with hm | hm
      · have h := scanCellsTable_mem t ti 0 m hm
        omega
      · have h := ih (ti + 1) m hm
        omega

theorem scanCellsDoc_pairwise : ∀ (ds : DocxDoc) (ti : Nat),
    (scanCellsDoc ti ds).Pairwise lexLt := by
  intro ds
  induction ds with
  | nil => intro ti; simp [scanCellsDoc]
  | cons t ts ih =>
      intro ti
      rw [scanCellsDoc, List.pairwise_append]
      refine ⟨scanCellsTable_pairwise t ti 0, ih (ti + 1), fun a ha b hb => ?_⟩
      have h1 := scanCellsTable_mem t ti 0 a ha
      have h2 := scanCellsDoc_mem ts (ti + 1) b hb
      exact Or.inl (by omega)

theorem effMatches_pairwise (doc : DocxDoc) (code : String) :
    (effMatches doc code).Pairwise lexLt := by
  simp only [effMatches, exactMatches, fallbackMatches]
  split
  · exact List.Pairwise.sublist (List.filter_sublist _) (scanCellsDoc_pairwise doc 0)
  · exact List.Pairwise.sublist (List.filter_sublist _) (scanCellsDoc_pairwise doc 0)

/-- C4: for a non-empty marker token, locate fails `NotFound` when the match
list (after the fallback) is empty, fails with the multiple-tables error when
two matches lie in different tables, and when all matches lie in a single
table it succeeds with the first match in document scan order (lexicographic
in table, row, column). -/
theorem C4_locate_semantics (doc : DocxDoc) (code : String) (hne : code ≠ "") :
    (effMatches doc code = [] → find_table_by_invisible_code doc code = .error .notFound) ∧
    (∀ m1 m2, m1 ∈ effMatches doc code → m2 ∈ effMatches doc code →
      m1.table_index ≠ m2.table_index →
      find_table_by_invisible_code doc code = .error .multipleTables) ∧
    (effMatches doc code ≠ [] →
      (∀ m1 m2, m1 ∈ effMatches doc code → m2 ∈ effMatches doc code →
        m1.table_index = m2.table_index) →
      ∃ m0, find_table_by_invisible_code doc code = .ok m0 ∧
        m0 ∈ effMatches doc code ∧
        ∀ m' ∈ effMatches doc code, m' = m0 ∨ lexLt m0 m') := by
  refine ⟨?_, ?_, ?_⟩
  · intro hms
    unfold find_table_by_invisible_code
    rw [if_neg hne]
    simp only [hms]
  · intro m1 m2 h1 h2 hdiff
    obtain ⟨m, rest, hms⟩ : ∃ m rest, effMatches doc code = m :: rest := by
      cases hcase : effMatches doc code with
      | nil => rw [hcase] at h1; simp at h1
      | cons m rest => exact ⟨m, rest, rfl⟩
    have hany : rest.any (fun m2 => m2.table_index != m.table_index) = true := by
      rw [List.any_eq_true]
      by_contra hall
      push_neg at hall
      have hsame : ∀ x ∈ effMatches doc code, x.table_index = m.table_index := by
        intro x hx
        rw [hms] at hx
        rcases List.mem_cons.mp hx with rfl | hx
        · rfl
        · have := hall x hx
          simpa using this
      exact hdiff (by rw [hsame m1 h1, hsame m2 h2])
    unfold find_table_by_invisible_code
    rw [if_neg hne]
    simp only [hms, hany, if_true]
  · intro hne2 hsame
    obtain ⟨m, rest, hms⟩ : ∃ m rest, effMatches doc code = m :: rest := by
      cases hcase : effMatches doc code with
      | nil => exact absurd hcase hne2
      | cons m rest => exact ⟨m, rest, rfl⟩
    have hany : rest.any (fun m2 => m2.table_index != m.table_index) = false := by
      rw [List.any_eq_false]
      intro x hx
      have hx2 : x ∈ effMatches doc code := by rw [hms]; simp [hx]
      have hm2 : m ∈ effMatches doc code := by rw [hms]; simp
      simp [hsame x m hx2 hm2]
    refine ⟨m, ?_, by rw [hms]; simp, ?_⟩
    · unfold find_table_by_invisible_code
      rw [if_neg hne]
      simp only [hms, hany, Bool.false_eq_true, if_false]
    · intro m' hm'
      have hpw := effMatches_pairwise doc code
      rw [hms, List.pairwise_cons] at hpw
      rcases List.mem_cons.mp (by rw [hms] at hm'; exact hm') with rfl | hm'
      · exact Or.inl rfl
      · exact Or.inr (hpw.1 m' hm')

/-- A document with two matches inside one table, and nothing in the second
table. -/
def C4doc : DocxDoc :=
  [[[{ text := "a [[A]]" }, { text := "b [[A]]" }]], [[{ text := "c" }]]]

/-- A document with the marker in two different tables. -/
def C4docAmb : DocxDoc :=
  [[[{ text := "[[A]]" }]], [[{ text := "[[A]]" }]]]

/-- C4 witness: the locate semantics at concrete documents. -/
theorem C4_locate_semantics_witness :
    find_table_by_invisible_code C4doc "[[B]]" = .error .notFound ∧
    find_table_by_invisible_code C4docAmb "[[A]]" = .error .multipleTables ∧
    find_table_by_invisible_code C4doc "[[A]]" = .ok ⟨0, 0, 0, "a [[A]]"⟩ := by
  refine ⟨?_, ?_, rfl⟩
  · exact (C4_locate_semantics C4doc "[[B]]" (by decide)).1 (by decide)
  · exact (C4_locate_semantics C4docAmb "[[A]]" (by decide)).2.1
      ⟨0, 0, 0, "[[A]]"⟩ ⟨1, 0, 0, "[[A]]"⟩ (by decide) (by decide) (by decide)

/-! ### Header-map injectivity

`build_header_map` assigns each canonical header the index of the cell that
first resolved to it, and each cell contributes at most one entry, so
distinct canonical names never share a column index. -/

theorem hmLookup_mem (hm : List (String × Nat)) (k : String) (v : Nat)
    (h : hmLookup hm k = some v) : (k, v) ∈ hm := by
  unfold hmLookup at h
  cases hf : hm.find? (fun p => p.1 == k) with
  | none => rw [hf] at h; exact Option.noConfusion h
  | some pr =>
      rw [hf] at h
      injection h with h2
      have hpred := List.find?_some hf
      have hmem := List.mem_of_find?_eq_some hf
      have hk : pr.1 = k := by simpa using hpred
      have : pr = (k, v) := by
        cases pr
        simp only [Prod.mk.injEq]
        exact ⟨hk, h2⟩
      rw [← this]
      exact hmem

theorem buildHeaderMapAux_inj : ∀ (cells : List String) (idx : Nat)
    (acc : List (String × Nat)),
    (∀ p ∈ acc, p.2 < idx) →
    (∀ p q, p ∈ acc → q ∈ acc → p.2 = q.2 → p.1 = q.1) →
    ∀ p q, p ∈ buildHeaderMapAux cells idx acc →
      q ∈ buildHeaderMapAux cells idx acc → p.2 = q.2 → p.1 = q.1 := by
  intro cells
  induction cells with
  | nil => intro idx acc _ hinj p q hp hq; exact hinj p q hp hq
  | cons cell rest ih =>
      intro idx acc hbound hinj p q hp hq
      simp only [buildHeaderMapAux] at hp hq
      cases hres : resolve_header (normalize_header cell) with
      | none =>
          simp only [hres] at hp hq
          exact ih (idx + 1) acc (fun p hp2 => by have := hbound p hp2; omega) hinj p q hp hq
      | some canonical =>
          simp only [hres] at hp hq
          by_cases hl : hmLookup acc canonical = none
          · rw [if_pos hl] at hp hq
            refine ih (idx + 1) (acc ++ [(canonical, idx)]) ?_ ?_ p q hp hq
            · intro p2 hp2
              rcases List.mem_append.mp hp2 with h2 | h2
              · have := hbound p2 h2; omega
              · simp only [List.mem_singleton] at h2
                rw [h2]
                omega
            · intro p2 q2 hp2 hq2 heq
              rcases List.mem_append.mp hp2 with h2 | h2 <;>
                rcases List.mem_append.mp hq2 with h3 | h3
              · exact hinj p2 q2 h2 h3 heq
              · simp only [List.mem_singleton] at h3
                have hb := hbound p2 h2
                rw [h3] at heq
                simp only at heq
                omega
              · simp only [List.mem_singleton] at h2
                have hb := hbound q2 h3
                rw [h2] at heq
                simp only at heq
                omega
              · simp only [List.mem_singleton] at h2 h3
                rw [h2, h3]
          · rw [if_neg hl] at hp hq
            exact ih (idx + 1) acc (fun p2 hp2 => by have := hbound p2 hp2; omega) hinj p q hp hq

theorem build_header_map_inj (cells : List String) (k1 k2 : String) (v : Nat)
    (h1 : hmLookup (build_header_map cells) k1 = some v)
    (h2 : hmLookup (build_header_map cells) k2 = some v) : k1 = k2 := by
  have hm1 := hmLookup_mem _ _ _ h1
  have hm2 := hmLookup_mem _ _ _ h2
  exact buildHeaderMapAux_inj cells 0 [] (by simp) (by simp) (k1, v) (k2, v) hm1 hm2 rfl

theorem hmLookup_cols_ne (cells : List String) (k1 k2 : String) (v1 v2 : Nat)
    (hk : k1 ≠ k2)
    (h1 : hmLookup (build_header_map cells) k1 = some v1)
    (h2 : hmLookup (build_header_map cells) k2 = some v2) : v1 ≠ v2 := by
  intro he
  rw [he] at h1
  exact hk (build_header_map_inj cells k1 k2 v2 h1 h2)

/-! ### Cell-access helper lemmas -/

def defaultCell : DocxCell := { text := "" }

/-- The raw text of one cell ("" out of range). -/
def cellTextAt (t : DocxTable) (r c : Nat) : String :=
  ((t.getD r []).getD c defaultCell).text

theorem getD_set_ne {α : Type} : ∀ (l : List α) (i j : Nat) (a d : α), j ≠ i →
    (l.set i a).getD j d = l.getD j d := by
  intro l
  induction l with
  | nil => intro i j a d _; simp [List.set]
  | cons x xs ih =>
      intro i j a d h
      cases i with
      | zero =>
          cases j with
          | zero => exact absurd rfl h
          | succ j => simp [List.set, List.getD]
      | succ i =>
          cases j with
          | zero => simp [List.set, List.getD]
          | succ j =>
              show (xs.set i a).getD j d = xs.getD j d
              exact ih i j a d (fun he => h (by rw [he]))

theorem getD_set_self {α : Type} : ∀ (l : List α) (i : Nat) (a d : α), i < l.length →
    (l.set i a).getD i d = a := by
  intro l
  induction l with
  | nil => intro i a d h; simp at h
  | cons x xs ih =>
      intro i a d h
      cases i with
      | zero => rfl
      | succ i =>
          show (xs.set i a).getD i d = a
          exact ih i a d (by simpa using h)

theorem getD_append_left {α : Type} : ∀ (l : List α) (x : List α) (i : Nat) (d : α),
    i < l.length → (l ++ x).getD i d = l.getD i d := by
  intro l
  induction l with
  | nil => intro x i d h; simp at h
  | cons a as ih =>
      intro x i d h
      cases i with
      | zero => rfl
      | succ i => exact ih x i d (by simpa using h)

theorem getD_all_eq {α : Type} [DecidableEq α] : ∀ (l : List α) (i : Nat) (d : α),
    (∀ x ∈ l, x = d) → l.getD i d = d := by
  intro l
  induction l with
  | nil => intro i d _; simp [List.getD]
  | cons a as ih =>
      intro i d h
      cases i with
      | zero => exact h a (by simp)
      | succ i => exact ih i d (fun x hx => h x (by simp [hx]))

theorem formatCell_text (s : String) (nc : Int) (i : Nat) (cell : DocxCell) :
    (formatCell s nc i cell).text = cell.text := by
  unfold formatCell
  split_ifs <;> rfl

theorem mapSet {α β : Type} (f : α → β) : ∀ (l : List α) (n : Nat) (a : α),
    (l.set n a).map f = (l.map f).set n (f a) := by
  intro l
  induction l with
  | nil => intro n a; rfl
  | cons x xs ih =>
      intro n a
      cases n with
      | zero => rfl
      | succ n =>
          show f x :: (xs.set n a).map f = f x :: (xs.map f).set n (f a)
          rw [ih n a]

theorem set_cell_text_length (t : DocxTable) (r c : Nat) (v : String) :
    (set_cell_text t r c v).length = t.length := by
  unfold set_cell_text
  split_ifs with h
  · cases hg : (t.getD r []).get? c
    · rfl
    · simp [List.length_set]
  · rfl

theorem set_cell_text_row_ne (t : DocxTable) (r c : Nat) (v : String) (r' : Nat)
    (h : r' ≠ r) : (set_cell_text t r c v).getD r' [] = t.getD r' [] := by
  unfold set_cell_text
  split_ifs with hlt
  · cases hg : (t.getD r []).get? c
    · rfl
    · exact getD_set_ne t r r' _ [] h
  · rfl

theorem apply_fmt_length (t : DocxTable) (r : Nat) (notes : String)
    (hm : List (String × Nat)) : (apply_row_formatting t r notes hm).length = t.length := by
  unfold apply_row_formatting
  split_ifs with h
  · rfl
  · simp [List.length_set]

theorem apply_fmt_row_ne (t : DocxTable) (r : Nat) (notes : String)
    (hm : List (String × Nat)) (r' : Nat) (h : r' ≠ r) :
    (apply_row_formatting t r notes hm).getD r' [] = t.getD r' [] := by
  unfold apply_row_formatting
  split_ifs with hge
  · rfl
  · exact getD_set_ne t r r' _ [] h

theorem enumFrom_format_texts (s : String) (nc : Int) :
    ∀ (l : List DocxCell) (i : Nat),
    ((List.enumFrom i l).map (fun p => formatCell s nc p.1 p.2)).map (fun c => pyStrip c.text)
      = l.map (fun c => pyStrip c.text) := by
  intro l
  induction l with
  | nil => intro i; rfl
  | cons a as ih =>
      intro i
      show pyStrip (formatCell s nc i a).text ::
        ((List.enumFrom (i + 1) as).map (fun p => formatCell s nc p.1 p.2)).map
          (fun c => pyStrip c.text) = pyStrip a.text :: as.map (fun c => pyStrip c.text)
      rw [formatCell_text, ih (i + 1)]

theorem enumFrom_format_getD (s : String) (nc : Int) :
    ∀ (l : List DocxCell) (i c' : Nat),
    ((((List.enumFrom i l).map (fun p => formatCell s nc p.1 p.2)).getD c' defaultCell)).text
      = (l.getD c' defaultCell).text := by
  intro l
  induction l with
  | nil => intro i c'; rfl
  | cons a as ih =>
      intro i c'
      cases c' with
      | zero =>
          show (formatCell s nc i a).text = a.text
          exact formatCell_text s nc i a
      | succ c' =>
          show (((List.enumFrom (i + 1) as).map (fun p => formatCell s nc p.1 p.2)).getD c' defaultCell).text
            = (as.getD c' defaultCell).text
          exact ih (i + 1) c'

theorem apply_fmt_texts (t : DocxTable) (r : Nat) (notes : String)
    (hm : List (String × Nat)) (r' : Nat) :
    get_cell_texts (apply_row_formatting t r notes hm) r' = get_cell_texts t r' := by
  unfold apply_row_formatting
  split_ifs with hge
  · rfl
  · by_cases hr : r' = r
    · subst hr
      unfold get_cell_texts
      rw [getD_set_self t r' _ [] (by omega)]
      exact enumFrom_format_texts _ _ (t.getD r' []) 0
    · unfold get_cell_texts
      rw [getD_set_ne t r r' _ [] hr]

theorem apply_fmt_cellText (t : DocxTable) (r : Nat) (notes : String)
    (hm : List (String × Nat)) (r' c' : Nat) :
    cellTextAt (apply_row_formatting t r notes hm) r' c' = cellTextAt t r' c' := by
  unfold apply_row_formatting
  split_ifs with hge
  · rfl
  · by_cases hr : r' = r
    · subst hr
      unfold cellTextAt
      rw [getD_set_self t r' _ [] (by omega)]
      exact enumFrom_format_getD _ _ (t.getD r' []) 0 c'
    · unfold cellTextAt
      rw [getD_set_ne t r r' _ [] hr]

theorem set_cell_text_cellText_ne_col (t : DocxTable) (r c : Nat) (v : String)
    (r' c' : Nat) (hc : c' ≠ c) :
    cellTextAt (set_cell_text t r c v) r' c' = cellTextAt t r' c' := by
  unfold set_cell_text
  split_ifs with hlt
  · cases hg : (t.getD r []).get? c
    · rfl
    · by_cases hr : r' = r
      · subst hr
        unfold cellTextAt
        rw [getD_set_self t r' _ [] hlt, getD_set_ne _ c c' _ defaultCell hc]
      · unfold cellTextAt
        rw [getD_set_ne t r r' _ [] hr]
  · rfl

theorem set_cell_text_texts_ne_col (t : DocxTable) (r c : Nat) (v : String)
    (r' c' : Nat) (hc : c' ≠ c) :
    (get_cell_texts (set_cell_text t r c v) r').getD c' ""
      = (get_cell_texts t r').getD c' "" := by
  unfold set_cell_text
  split_ifs with hlt
  · cases hg : (t.getD r []).get? c
    · rfl
    · by_cases hr : r' = r
      · subst hr
        unfold get_cell_texts
        rw [getD_set_self t r' _ [] hlt, mapSet, getD_set_ne _ c c' _ "" hc]
      · unfold get_cell_texts
        rw [getD_set_ne t r r' _ [] hr]
  · rfl

theorem set_cell_text_texts_disj (t : DocxTable) (r c : Nat) (v : String)
    (r' c' : Nat) :
    (get_cell_texts (set_cell_text t r c v) r').getD c' ""
        = (get_cell_texts t r').getD c' "" ∨
    (get_cell_texts (set_cell_text t r c v) r').getD c' "" = pyStrip v := by
  by_cases hr : r' = r
  · by_cases hc : c' = c
    · subst hr
      subst hc
      unfold set_cell_text
      split_ifs with hlt
      · cases hg : (t.getD r' []).get? c'
        · left; rfl
        · right
          have hlen : c' < (t.getD r' []).length := by
            by_contra hcon
            rw [List.get?_eq_none.mpr (by omega)] at hg
            exact Option.noConfusion hg
          unfold get_cell_texts
          rw [getD_set_self t r' _ [] hlt, mapSet,
            getD_set_self _ c' _ "" (by simpa using hlen)]
      · left; rfl
    · exact Or.inl (set_cell_text_texts_ne_col t r c v r' c' hc)
  · left
    unfold get_cell_texts
    rw [set_cell_text_row_ne t r c v r' hr]

/-! ### Field-write lemmas -/

theorem setField_length (t : DocxTable) (r : Nat) (col : Option Nat) (v : String) :
    (setField t r col v).length = t.length := by
  cases col with
  | none => rfl
  | some cc => exact set_cell_text_length t r cc v

theorem setField_row_ne (t : DocxTable) (r : Nat) (col : Option Nat) (v : String)
    (r' : Nat) (h : r' ≠ r) : (setField t r col v).getD r' [] = t.getD r' [] := by
  cases col with
  | none => rfl
  | some cc => exact set_cell_text_row_ne t r cc v r' h

theorem setField_texts_ne_col (t : DocxTable) (r : Nat) (col : Option Nat) (v : String)
    (r' c' : Nat) (h : ∀ cc, col = some cc → c' ≠ cc) :
    (get_cell_texts (setField t r col v) r').getD c' "" = (get_cell_texts t r').getD c' "" := by
  cases col with
  | none => rfl
  | some cc => exact set_cell_text_texts_ne_col t r cc v r' c' (h cc rfl)

theorem setField_texts_disj (t : DocxTable) (r : Nat) (col : Option Nat) (v : String)
    (r' c' : Nat) :
    (get_cell_texts (setField t r col v) r').getD c' "" = (get_cell_texts t r').getD c' "" ∨
    (get_cell_texts (setField t r col v) r').getD c' "" = pyStrip v := by
  cases col with
  | none => exact Or.inl rfl
  | some cc => exact set_cell_text_texts_disj t r cc v r' c'

theorem setField_cellText_ne_col (t : DocxTable) (r : Nat) (col : Option Nat) (v : String)
    (r' c' : Nat) (h : ∀ cc, col = some cc → c' ≠ cc) :
    cellTextAt (setField t r col v) r' c' = cellTextAt t r' c' := by
  cases col with
  | none => rfl
  | some cc => exact set_cell_text_cellText_ne_col t r cc v r' c' (h cc rfl)

theorem fillField_length (t : DocxTable) (r : Nat) (col : Option Nat) (b : Bool) (v : String) :
    (fillField t r col b v).length = t.length := by
  cases col with
  | none => rfl
  | some cc =>
      show (if b then set_cell_text t r cc v else t).length = t.length
      split_ifs
      · exact set_cell_text_length t r cc v
      · rfl

theorem fillField_row_ne (t : DocxTable) (r : Nat) (col : Option Nat) (b : Bool)
    (v : String) (r' : Nat) (h : r' ≠ r) :
    (fillField t r col b v).getD r' [] = t.getD r' [] := by
  cases col with
  | none => rfl
  | some cc =>
      show (if b then set_cell_text t r cc v else t).getD r' [] = t.getD r' []
      split_ifs
      · exact set_cell_text_row_ne t r cc v r' h
      · rfl

theorem fillField_texts_ne_col (t : DocxTable) (r : Nat) (col : Option Nat) (b : Bool)
    (v : String) (r' c' : Nat) (h : ∀ cc, col = some cc → c' ≠ cc) :
    (get_cell_texts (fillField t r col b v) r').getD c' ""
      = (get_cell_texts t r').getD c' "" := by
  cases col with
  | none => rfl
  | some cc =>
      show (get_cell_texts (if b then set_cell_text t r cc v else t) r').getD c' "" = _
      split_ifs
      · exact set_cell_text_texts_ne_col t r cc v r' c' (h cc rfl)
      · rfl

theorem fillField_cellText_ne_col (t : DocxTable) (r : Nat) (col : Option Nat) (b : Bool)
    (v : String) (r' c' : Nat) (h : ∀ cc, col = some cc → c' ≠ cc) :
    cellTextAt (fillField t r col b v) r' c' = cellTextAt t r' c' := by
  cases col with
  | none => rfl
  | some cc =>
      show cellTextAt (if b then set_cell_text t r cc v else t) r' c' = _
      split_ifs
      · exact set_cell_text_cellText_ne_col t r cc v r' c' (h cc rfl)
      · rfl

theorem getD_oob {α : Type} : ∀ (l : List α) (i : Nat) (d : α), l.length ≤ i →
    l.getD i d = d := by
  intro l
  induction l with
  | nil => intro i d _; simp [List.getD]
  | cons a as ih =>
      intro i d h
      cases i with
      | zero => simp at h
      | succ i => exact ih i d (by simpa using h)

/-- Blank-filling a row whose ADDRESS cell is non-blank never touches that
cell's text. -/
theorem fill_blank_keeps_address (t : DocxTable) (r : Nat) (cellsH : List String)
    (c : ControlRow) (apu : Bool) (ac : Nat)
    (hac : hmLookup (build_header_map cellsH) "ADDRESS" = some ac)
    (hnb : pyStrip ((get_cell_texts t r).getD ac "") ≠ "") :
    cellTextAt (fill_blank_cells t r (build_header_map cellsH) c apu) r ac
      = cellTextAt t r ac := by
  have hblank : cellIsBlank (get_cell_texts t r) (build_header_map cellsH) "ADDRESS" = false := by
    unfold cellIsBlank
    simp only [hac]
    have h2 : (pyStrip ((get_cell_texts t r).getD ac "") == "") = false := by
      simpa using hnb
    have h1 : (decide (ac ≥ (get_cell_texts t r).length)) = false := by
      by_contra hcon
      have hge : (get_cell_texts t r).length ≤ ac := by
        simpa using of_decide_eq_true (Bool.of_not_eq_false hcon)
      rw [getD_oob _ _ _ hge] at hnb
      exact hnb (by decide)
    rw [h1, h2]
    rfl
  simp only [fill_blank_cells]
  rw [apply_fmt_cellText]
  rw [fillField_cellText_ne_col _ _ _ _ _ r ac
    (fun cc hcc => hmLookup_cols_ne cellsH "ADDRESS" "PRICE" ac cc (by decide) hac hcc)]
  rw [fillField_cellText_ne_col _ _ _ _ _ r ac
    (fun cc hcc => hmLookup_cols_ne cellsH "ADDRESS" "NOTES" ac cc (by decide) hac hcc)]
  rw [fillField_cellText_ne_col _ _ _ _ _ r ac
    (fun cc hcc => hmLookup_cols_ne cellsH "ADDRESS" "READY BY" ac cc (by decide) hac hcc)]
  rw [hac, hblank]
  show cellTextAt (if false = true then set_cell_text t r ac c.address else t) r ac
    = cellTextAt t r ac
  rw [if_neg (by simp)]

/-- C8: with `updateOnlyBlankCells=true` and `overwriteExisting=false`, once
the ADDRESS cell of the record's (first matching) row is non-blank, a further
`write()` of the record leaves that ADDRESS cell's text unchanged — in
whatever way the write resolves (blank-fill, strict failure, or header
failure). -/
theorem C8_blank_fill_address_stable (t : DocxTable) (c : ControlRow)
    (apu strict : Bool) (h1 r ac : Nat) (rest : List Nat)
    (hex : find_existing_site_rows t (build_header_map (get_cell_texts t (h1 - 1)))
        c.homesite (h1 - 1 + 1) = r :: rest)
    (hac : hmLookup (build_header_map (get_cell_texts t (h1 - 1))) "ADDRESS" = some ac)
    (hnb : pyStrip ((get_cell_texts t r).getD ac "") ≠ "") :
    cellTextAt (((writeToTable t c false true apu strict h1).1).getD t) r ac
      = cellTextAt t r ac := by
  by_cases hh : h1 - 1 ≥ t.length
  · simp [writeToTable, hh]
  · by_cases hv : validate_headers (build_header_map (get_cell_texts t (h1 - 1))) = []
    · by_cases hd : 1 < (find_existing_site_rows t
          (build_header_map (get_cell_texts t (h1 - 1))) c.homesite (h1 - 1 + 1)).length
          ∧ strict = true
      · simp [writeToTable, hh, hv, hd]
      · have hd2 : ¬ (1 < (r :: rest).length ∧ strict = true) := by
          rw [hex] at hd
          exact hd
        simp only [writeToTable, if_neg hh, hv, ne_eq, not_true_eq_false, if_false,
          hex, if_neg hd2, Bool.false_eq_true, if_true, Option.getD_some]
        exact fill_blank_keeps_address t r (get_cell_texts t (h1 - 1)) c apu ac hac hnb
    · simp [writeToTable, hh, hv]

/-- A table whose row for unit 28 already carries an address. -/
def C8table : DocxTable :=
  [[{ text := "Floorplan 02" }],
   [{ text := "Site" }, { text := "Price" }, { text := "Ready By" },
    { text := "Address" }, { text := "Notes" }],
   [{ text := "28" }, { text := "$500,000" }, { text := "" },
    { text := "12 Main St" }, { text := "" }]]

def C8rec : ControlRow :=
  { community := "NOVA", homesite := "28", floorplan := "02",
    price := "510000", address := "999 Other St", notes := "note" }

/-- C8 witness: a blank-fill write against the concrete table leaves the
non-blank ADDRESS cell exactly as it was. -/
theorem C8_blank_fill_address_stable_witness :
    cellTextAt (((writeToTable C8table C8rec false true false true 2).1).getD C8table) 2 3
      = cellTextAt C8table 2 3 ∧
    cellTextAt C8table 2 3 = "12 Main St" := by
  refine ⟨C8_blank_fill_address_stable C8table C8rec false true 2 2 3 []
    (by decide) (by decide) (by decide), by decide⟩

/-! ### The spec-side staleness condition (for the refinement comparison) -/

/-- The per-pair difference condition as the spec words it: notes differ, or
a non-empty control price / address / ready-by differs from the rendered
value. -/
def rowDiffersP (cr : ControlRow) (e : RowData) : Prop :=
  pyStrip cr.notes ≠ pyStrip e.notes ∨
  (pyStrip cr.price ≠ "" ∧ pyStrip cr.price ≠ pyStrip e.price) ∨
  (pyStrip cr.address ≠ "" ∧ pyStrip cr.address ≠ pyStrip e.address) ∨
  (pyStrip cr.ready_by ≠ "" ∧ pyStrip cr.ready_by ≠ pyStrip e.ready_by)

/-- Spec §4.5 step 4, worded as in the spec: stale iff (a) a rendered
unit_id has no counterpart Record, or (b) a Record has no rendered
counterpart, or (c) a matched pair differs. -/
def staleSpec (existing : List (String × RowData)) (crows : List ControlRow) : Prop :=
  (∃ p ∈ existing, ∀ cr ∈ crows, normalize_for_compare cr.homesite ≠ p.1) ∨
  (∃ cr ∈ crows, dLookup existing (normalize_for_compare cr.homesite) = none) ∨
  (∃ cr ∈ crows, ∃ e, dLookup existing (normalize_for_compare cr.homesite) = some e ∧
    rowDiffersP cr e)

theorem rowDiffers_iff (cr : ControlRow) (e : RowData) :
    rowDiffers cr e = true ↔ rowDiffersP cr e := by
  unfold rowDiffers rowDiffersP
  simp only [Bool.or_eq_true, Bool.and_eq_true, bne_iff_ne, ne_eq]
  tauto

theorem deletionDetected_iff (existing : List (String × RowData)) (crows : List ControlRow) :
    deletionDetected existing crows = true ↔
    ∃ p ∈ existing, ∀ cr ∈ crows, normalize_for_compare cr.homesite ≠ p.1 := by
  unfold deletionDetected
  rw [List.any_eq_true]
  constructor
  · rintro ⟨p, hp, hb⟩
    refine ⟨p, hp, fun cr hcr he => ?_⟩
    simp only [Bool.not_eq_true', List.elem_eq_mem, decide_eq_false_iff_not] at hb
    exact hb (List.mem_map.mpr ⟨cr, hcr, he⟩)
  · rintro ⟨p, hp, hall⟩
    refine ⟨p, hp, ?_⟩
    simp only [Bool.not_eq_true', List.elem_eq_mem, decide_eq_false_iff_not]
    intro hmem
    obtain ⟨cr, hcr, he⟩ := List.mem_map.mp hmem
    exact hall cr hcr he

theorem changedRowDetected_iff (existing : List (String × RowData)) (crows : List ControlRow) :
    changedRowDetected existing crows = true ↔
    ((∃ cr ∈ crows, dLookup existing (normalize_for_compare cr.homesite) = none) ∨
     (∃ cr ∈ crows, ∃ e, dLookup existing (normalize_for_compare cr.homesite) = some e ∧
       rowDiffersP cr e)) := by
  unfold changedRowDetected
  rw [List.any_eq_true]
  constructor
  · rintro ⟨cr, hcr, hb⟩
    cases hl : dLookup existing (normalize_for_compare cr.homesite) with
    | none => exact Or.inl ⟨cr, hcr, hl⟩
    | some e =>
        rw [hl] at hb
        exact Or.inr ⟨cr, hcr, e, hl, (rowDiffers_iff cr e).mp hb⟩
  · rintro (⟨cr, hcr, hl⟩ | ⟨cr, hcr, e, hl, hd⟩)
    · exact ⟨cr, hcr, by rw [hl]⟩
    · exact ⟨cr, hcr, by rw [hl]; exact (rowDiffers_iff cr e).mpr hd⟩

theorem sync_any_changes_iff (existing : List (String × RowData)) (crows : List ControlRow) :
    sync_any_changes existing crows = true ↔ staleSpec existing crows := by
  unfold sync_any_changes staleSpec
  rw [Bool.or_eq_true, deletionDetected_iff, changedRowDetected_iff]

/-! ### What a single row write can do to SITE cells -/

theorem norm_pyStrip (s : String) :
    normalize_for_compare (pyStrip s) = normalize_for_compare s := by
  unfold normalize_for_compare
  rw [pyStrip_idem]

theorem write_row_length (t : DocxTable) (r : Nat) (hm : List (String × Nat))
    (c : ControlRow) : (write_row t r hm c).length = t.length := by
  unfold write_row
  rw [apply_fmt_length, setField_length, setField_length, setField_length,
    setField_length, setField_length]

theorem write_row_row_ne (t : DocxTable) (r : Nat) (hm : List (String × Nat))
    (c : ControlRow) (r' : Nat) (h : r' ≠ r) :
    (write_row t r hm c).getD r' [] = t.getD r' [] := by
  unfold write_row
  rw [apply_fmt_row_ne _ _ _ _ _ h, setField_row_ne _ _ _ _ _ h,
    setField_row_ne _ _ _ _ _ h, setField_row_ne _ _ _ _ _ h,
    setField_row_ne _ _ _ _ _ h, setField_row_ne _ _ _ _ _ h]

theorem write_row_site_texts (t : DocxTable) (r : Nat) (cellsH : List String)
    (c : ControlRow) (sc : Nat)
    (hsc : hmLookup (build_header_map cellsH) "SITE" = some sc) (r' : Nat) :
    (get_cell_texts (write_row t r (build_header_map cellsH) c) r').getD sc ""
        = (get_cell_texts t r').getD sc "" ∨
    (get_cell_texts (write_row t r (build_header_map cellsH) c) r').getD sc ""
        = pyStrip c.homesite := by
  unfold write_row
  rw [apply_fmt_texts]
  rw [setField_texts_ne_col _ _ _ _ r' sc
    (fun cc hcc => hmLookup_cols_ne cellsH "SITE" "NOTES" sc cc (by decide) hsc hcc)]
  rw [setField_texts_ne_col _ _ _ _ r' sc
    (fun cc hcc => hmLookup_cols_ne cellsH "SITE" "READY BY" sc cc (by decide) hsc hcc)]
  rw [setField_texts_ne_col _ _ _ _ r' sc
    (fun cc hcc => hmLookup_cols_ne cellsH "SITE" "ADDRESS" sc cc (by decide) hsc hcc)]
  rw [setField_texts_ne_col _ _ _ _ r' sc
    (fun cc hcc => hmLookup_cols_ne cellsH "SITE" "PRICE" sc cc (by decide) hsc hcc)]
  exact setField_texts_disj t r (hmLookup (build_header_map cellsH) "SITE") c.homesite r' sc

theorem fill_blank_length (t : DocxTable) (r : Nat) (hm : List (String × Nat))
    (c : ControlRow) (apu : Bool) :
    (fill_blank_cells t r hm c apu).length = t.length := by
  simp only [fill_blank_cells]
  rw [apply_fmt_length, fillField_length, fillField_length, fillField_length,
    fillField_length]

theorem fill_blank_row_ne (t : DocxTable) (r : Nat) (hm : List (String × Nat))
    (c : ControlRow) (apu : Bool) (r' : Nat) (h : r' ≠ r) :
    (fill_blank_cells t r hm c apu).getD r' [] = t.getD r' [] := by
  simp only [fill_blank_cells]
  rw [apply_fmt_row_ne _ _ _ _ _ h, fillField_row_ne _ _ _ _ _ _ h,
    fillField_row_ne _ _ _ _ _ _ h, fillField_row_ne _ _ _ _ _ _ h,
    fillField_row_ne _ _ _ _ _ _ h]

theorem fill_blank_site_texts (t : DocxTable) (r : Nat) (cellsH : List String)
    (c : ControlRow) (apu : Bool) (sc : Nat)
    (hsc : hmLookup (build_header_map cellsH) "SITE" = some sc) (r' : Nat) :
    (get_cell_texts (fill_blank_cells t r (build_header_map cellsH) c apu) r').getD sc ""
      = (get_cell_texts t r').getD sc "" := by
  simp only [fill_blank_cells]
  rw [apply_fmt_texts]
  rw [fillField_texts_ne_col _ _ _ _ _ r' sc
    (fun cc hcc => hmLookup_cols_ne cellsH "SITE" "PRICE" sc cc (by decide) hsc hcc)]
  rw [fillField_texts_ne_col _ _ _ _ _ r' sc
    (fun cc hcc => hmLookup_cols_ne cellsH "SITE" "NOTES" sc cc (by decide) hsc hcc)]
  rw [fillField_texts_ne_col _ _ _ _ _ r' sc
    (fun cc hcc => hmLookup_cols_ne cellsH "SITE" "READY BY" sc cc (by decide) hsc hcc)]
  rw [fillField_texts_ne_col _ _ _ _ _ r' sc
    (fun cc hcc => hmLookup_cols_ne cellsH "SITE" "ADDRESS" sc cc (by decide) hsc hcc)]

theorem getD_append_length {α : Type} : ∀ (l : List α) (x d : α),
    (l ++ [x]).getD l.length d = x := by
  intro l
  induction l with
  | nil => intro x d; rfl
  | cons a as ih => intro x d; exact ih x d

theorem add_row_length (t : DocxTable) : (add_row_to_table t).length = t.length + 1 := by
  simp [add_row_to_table]

theorem add_row_getD_lt (t : DocxTable) (r' : Nat) (h : r' < t.length) :
    (add_row_to_table t).getD r' [] = t.getD r' [] := by
  unfold add_row_to_table
  exact getD_append_left t _ r' [] h

theorem add_row_new_texts (t : DocxTable) (sc : Nat) :
    (get_cell_texts (add_row_to_table t) t.length).getD sc "" = "" := by
  unfold add_row_to_table get_cell_texts
  rw [getD_append_length]
  refine getD_all_eq _ sc "" ?_
  intro x hx
  rw [List.map_map] at hx
  obtain ⟨cell, _, hcell⟩ := List.mem_map.mp hx
  rw [← hcell]
  rfl

theorem texts_oob (t : DocxTable) (r' : Nat) (h : t.length ≤ r') (sc : Nat) :
    (get_cell_texts t r').getD sc "" = "" := by
  unfold get_cell_texts
  rw [getD_oob t r' [] h]
  rfl

theorem texts_add_row_lt (t : DocxTable) (r' : Nat) (h : r' < t.length) :
    get_cell_texts (add_row_to_table t) r' = get_cell_texts t r' := by
  unfold get_cell_texts
  rw [add_row_getD_lt t r' h]

theorem find_existing_head_bounds (t : DocxTable) (hm : List (String × Nat))
    (hs : String) (ds r : Nat) (rest : List Nat)
    (h : find_existing_site_rows t hm hs ds = r :: rest) :
    ds ≤ r ∧ r < t.length := by
  unfold find_existing_site_rows at h
  cases hsc : hmLookup hm "SITE" with
  | none =>
      rw [hsc] at h
      exact absurd h (by simp)
  | some sc =>
      rw [hsc] at h
      have hr : r ∈ List.range' ds (t.length - ds) :=
        (List.mem_filter.mp (h ▸ List.mem_cons_self r rest)).1
      have := List.mem_range'_1.mp hr
      omega

theorem find_blank_bounds (t : DocxTable) (hm : List (String × Nat)) (ds b : Nat)
    (h : find_next_blank_row t hm ds = some b) : ds ≤ b ∧ b < t.length := by
  unfold find_next_blank_row at h
  have hb := List.mem_of_find?_eq_some h
  have := List.mem_range'_1.mp hb
  omega

/-- A successful table-level write keeps the header region intact, grows the
table by at most one row, and only ever places the record's homesite into
SITE cells. -/
theorem writeToTable_props (t : DocxTable) (c : ControlRow)
    (ow ub apu sm : Bool) (h1 : Nat) (t2 : DocxTable) (res : DocxWriteResult)
    (hw : writeToTable t c ow ub apu sm h1 = (some t2, res)) :
    (h1 - 1 < t.length) ∧
    t.length ≤ t2.length ∧ t2.length ≤ t.length + 1 ∧
    (∀ r', r' ≤ h1 - 1 → t2.getD r' [] = t.getD r' []) ∧
    (∀ sc, hmLookup (build_header_map (get_cell_texts t (h1 - 1))) "SITE" = some sc →
      ∀ r', (get_cell_texts t2 r').getD sc "" = (get_cell_texts t r').getD sc "" ∨
            (get_cell_texts t2 r').getD sc "" = pyStrip c.homesite) := by
  by_cases hh : h1 - 1 ≥ t.length
  · simp only [writeToTable, if_pos hh] at hw
    exact absurd (congrArg Prod.fst hw) (by simp)
  · by_cases hv : validate_headers (build_header_map (get_cell_texts t (h1 - 1))) = []
    · by_cases hd : 1 < (find_existing_site_rows t
          (build_header_map (get_cell_texts t (h1 - 1))) c.homesite (h1 - 1 + 1)).length
          ∧ sm = true
      · simp only [writeToTable, if_neg hh, hv, ne_eq, not_true_eq_false, if_false,
          if_pos hd] at hw
        exact absurd (congrArg Prod.fst hw) (by simp)
      · cases hex : find_existing_site_rows t
            (build_header_map (get_cell_texts t (h1 - 1))) c.homesite (h1 - 1 + 1) with
        | cons r rest =>
            have hrb := find_existing_head_bounds t _ c.homesite _ r rest hex
            rw [hex] at hd
            simp only [writeToTable, if_neg hh, hv, ne_eq, not_true_eq_false, if_false,
              if_neg hd, hex] at hw
            by_cases how : ow = true
            · rw [if_pos how] at hw
              have ht2 : t2 = write_row t r (build_header_map (get_cell_texts t (h1 - 1))) c := by
                have := congrArg Prod.fst hw
                simpa using this.symm
              subst ht2
              refine ⟨by omega, by rw [write_row_length], by rw [write_row_length]; omega,
                fun r' hr' => ?_, fun sc hsc r' => ?_⟩
              · exact write_row_row_ne _ _ _ _ _ (by omega)
              · exact write_row_site_texts t r _ c sc hsc r'
            · rw [if_neg how] at hw
              by_cases hub : ub = true
              · rw [if_pos hub] at hw
                have ht2 : t2 = fill_blank_cells t r
                    (build_header_map (get_cell_texts t (h1 - 1))) c apu := by
                  have := congrArg Prod.fst hw
                  simpa using this.symm
                subst ht2
                refine ⟨by omega, by rw [fill_blank_length], by rw [fill_blank_length]; omega,
                  fun r' hr' => ?_, fun sc hsc r' => ?_⟩
                · exact fill_blank_row_ne _ _ _ _ _ _ (by omega)
                · exact Or.inl (fill_blank_site_texts t r _ c apu sc hsc r')
              · rw [if_neg hub] at hw
                exact absurd (congrArg Prod.fst hw) (by simp)
        | nil =>
            rw [hex] at hd
            simp only [writeToTable, if_neg hh, hv, ne_eq, not_true_eq_false, if_false,
              if_neg hd, hex] at hw
            cases hb : find_next_blank_row t
                (build_header_map (get_cell_texts t (h1 - 1))) (h1 - 1 + 1) with
            | some blank =>
                have hbb := find_blank_bounds t _ _ blank hb
                rw [hb] at hw
                have ht2 : t2 = write_row t blank
                    (build_header_map (get_cell_texts t (h1 - 1))) c := by
                  have := congrArg Prod.fst hw
                  simpa using this.symm
                subst ht2
                refine ⟨by omega, by rw [write_row_length], by rw [write_row_length]; omega,
                  fun r' hr' => ?_, fun sc hsc r' => ?_⟩
                · exact write_row_row_ne _ _ _ _ _ (by omega)
                · exact write_row_site_texts t blank _ c sc hsc r'
            | none =>
                rw [hb] at hw
                have ht2 : t2 = write_row (add_row_to_table t) t.length
                    (build_header_map (get_cell_texts t (h1 - 1))) c := by
                  have := congrArg Prod.fst hw
                  simpa using this.symm
                subst ht2
                refine ⟨by omega, ?_, ?_, fun r' hr' => ?_, fun sc hsc r' => ?_⟩
                · rw [write_row_length, add_row_length]; omega
                · rw [write_row_length, add_row_length]
                · rw [write_row_row_ne _ _ _ _ _ (by omega),
                    add_row_getD_lt t r' (by omega)]
                · rcases write_row_site_texts (add_row_to_table t) t.length _ c sc hsc r'
                    with hold | hnew
                  · rw [hold]
                    by_cases hlt : r' < t.length
                    · rw [texts_add_row_lt t r' hlt]
                      exact Or.inl rfl
                    · by_cases heq : r' = t.length
                      · rw [heq, add_row_new_texts]
                        exact Or.inl (texts_oob t t.length (by omega) sc).symm
                      · rw [texts_oob (add_row_to_table t) r' (by rw [add_row_length]; omega) sc]
                        exact Or.inl (texts_oob t r' (by omega) sc).symm
                  · exact Or.inr hnew
    · simp only [writeToTable, if_neg hh] at hw
      rw [if_pos (by simpa using hv)] at hw
      exact absurd (congrArg Prod.fst hw) (by simp)

/-! ### What the header-addressed reader can see after a rebuild -/

theorem site_ite_getD (cells : List String) (sc : Nat) :
    (if sc < cells.length then cells.getD sc "" else "") = cells.getD sc "" := by
  split_ifs with h
  · rfl
  · rw [getD_oob cells sc "" (by omega)]

theorem readFinalTable_mem (t : DocxTable) (h1 : Nat) (rd : RowData)
    (hrd : rd ∈ readFinalTable t h1) :
    ∃ sc r, h1 - 1 < t.length ∧
      hmLookup (build_header_map (get_cell_texts t (h1 - 1))) "SITE" = some sc ∧
      h1 - 1 + 1 ≤ r ∧ r < t.length ∧
      rd.homesite = pyStrip ((get_cell_texts t r).getD sc "") ∧
      pyStrip ((get_cell_texts t r).getD sc "") ≠ "" := by
  simp only [readFinalTable] at hrd
  by_cases hh : h1 - 1 ≥ t.length
  · rw [if_pos hh] at hrd
    simp at hrd
  · rw [if_neg hh] at hrd
    cases hsc : hmLookup (build_header_map (get_cell_texts t (h1 - 1))) "SITE" with
    | none =>
        rw [hsc] at hrd
        simp at hrd
    | some sc =>
        rw [hsc] at hrd
        obtain ⟨r, hrin, hfr⟩ := List.mem_filterMap.mp hrd
        have hrange := List.mem_range'_1.mp hrin
        rw [site_ite_getD] at hfr
        by_cases hcond : pyStrip ((get_cell_texts t r).getD sc "") = ""
        · rw [if_pos hcond] at hfr
          exact absurd hfr (by simp)
        · rw [if_neg hcond] at hfr
          refine ⟨sc, r, by omega, rfl, by omega, by omega, ?_, hcond⟩
          have := congrArg RowData.homesite (Option.some.inj hfr)
          rw [← this]

theorem readFinalTable_of (t : DocxTable) (h1 sc r : Nat)
    (hh : h1 - 1 < t.length)
    (hsc : hmLookup (build_header_map (get_cell_texts t (h1 - 1))) "SITE" = some sc)
    (hr1 : h1 - 1 + 1 ≤ r) (hr2 : r < t.length)
    (hnb : pyStrip ((get_cell_texts t r).getD sc "") ≠ "") :
    ∃ rd ∈ readFinalTable t h1,
      rd.homesite = pyStrip ((get_cell_texts t r).getD sc "") := by
  simp only [readFinalTable, if_neg (by omega : ¬ h1 - 1 ≥ t.length), hsc]
  refine ⟨{ homesite := pyStrip ((get_cell_texts t r).getD sc "")
            price := readField (get_cell_texts t r)
              (hmLookup (build_header_map (get_cell_texts t (h1 - 1))) "PRICE")
            address := readField (get_cell_texts t r)
              (hmLookup (build_header_map (get_cell_texts t (h1 - 1))) "ADDRESS")
            ready_by := readField (get_cell_texts t r)
              (hmLookup (build_header_map (get_cell_texts t (h1 - 1))) "READY BY")
            notes := readField (get_cell_texts t r)
              (hmLookup (build_header_map (get_cell_texts t (h1 - 1))) "NOTES") }, ?_, rfl⟩
  refine List.mem_filterMap.mpr ⟨r, List.mem_range'_1.mpr ⟨hr1, by omega⟩, ?_⟩
  rw [site_ite_getD, if_neg hnb]

/-- A successful table-level write cannot introduce a reader-visible unit id
other than the record's own. -/
theorem writeToTable_noUnit (t : DocxTable) (c : ControlRow)
    (ow ub apu sm : Bool) (h1 : Nat) (t2 : DocxTable) (res : DocxWriteResult)
    (key : String)
    (hw : writeToTable t c ow ub apu sm h1 = (some t2, res))
    (hkey : normalize_for_compare c.homesite ≠ key)
    (hno : ∀ rd ∈ readFinalTable t h1, normalize_for_compare rd.homesite ≠ key) :
    ∀ rd ∈ readFinalTable t2 h1, normalize_for_compare rd.homesite ≠ key := by
  intro rd hrd
  obtain ⟨hhlt, hlen1, hlen2, hhdr, hsite⟩ := writeToTable_props t c ow ub apu sm h1 t2 res hw
  obtain ⟨sc, r, hh2, hsc2, hr1, hr2, hhom, hnb⟩ := readFinalTable_mem t2 h1 rd hrd
  have hhdr_eq : get_cell_texts t2 (h1 - 1) = get_cell_texts t (h1 - 1) := by
    unfold get_cell_texts
    rw [hhdr (h1 - 1) le_rfl]
  rw [hhdr_eq] at hsc2
  rcases hsite sc hsc2 r with hold | hnew
  · rw [hold] at hhom hnb
    by_cases hlt : r < t.length
    · obtain ⟨rd0, hrd0, hhom0⟩ := readFinalTable_of t h1 sc r hhlt hsc2 hr1 hlt hnb
      rw [hhom, ← hhom0]
      exact hno rd0 hrd0
    · rw [texts_oob t r (by omega) sc] at hnb
      exact absurd (by decide) hnb
  · rw [hnew] at hhom
    rw [hhom, norm_pyStrip, norm_pyStrip]
    exact hkey

theorem mem_set_elem {α : Type} : ∀ (l : List α) (i : Nat) (a x : α),
    x ∈ l.set i a → x = a ∨ x ∈ l := by
  intro l
  induction l with
  | nil => intro i a x hx; simp [List.set] at hx
  | cons b bs ih =>
      intro i a x hx
      cases i with
      | zero =>
          rcases List.mem_cons.mp hx with rfl | h
          · exact Or.inl rfl
          · exact Or.inr (by simp [h])
      | succ i =>
          rcases List.mem_cons.mp hx with rfl | h
          · exact Or.inr (by simp)
          · rcases ih i a x h with h2 | h2
            · exact Or.inl h2
            · exact Or.inr (by simp [h2])

theorem getD_mem {α : Type} (l : List α) (i : Nat) (d : α) (h : i < l.length) :
    l.getD i d ∈ l := by
  rw [List.getD_eq_getElem l d h]
  exact List.getElem_mem h

theorem read_final_mem_iff (doc : DocxDoc) (h1 : Nat) (rd : RowData) :
    rd ∈ read_final_docx_data doc h1 ↔ ∃ tb ∈ doc, rd ∈ readFinalTable tb h1 := by
  unfold read_final_docx_data
  rw [List.mem_flatten]
  constructor
  · rintro ⟨l, hl, hrdl⟩
    obtain ⟨tb, htb, rfl⟩ := List.mem_map.mp hl
    exact ⟨tb, htb, hrdl⟩
  · rintro ⟨tb, htb, hrdtb⟩
    exact ⟨readFinalTable tb h1, List.mem_map.mpr ⟨tb, htb, rfl⟩, hrdtb⟩

/-- A successful rebuild write into one table of the document preserves the
absence of a unit id that is not the record's own. -/
theorem write_to_template_noUnit (doc : DocxDoc) (ic : String) (c : ControlRow)
    (ow ub apu sm : Bool) (h1 : Nat) (d2 : DocxDoc) (res : DocxWriteResult) (key : String)
    (hw : write_to_template doc ic c ow ub apu sm false h1 = .ok (some d2, res))
    (hkey : normalize_for_compare c.homesite ≠ key)
    (hno : ∀ rd ∈ read_final_docx_data doc h1, normalize_for_compare rd.homesite ≠ key) :
    ∀ rd ∈ read_final_docx_data d2 h1, normalize_for_compare rd.homesite ≠ key := by
  unfold write_to_template at hw
  cases hf : find_table_by_invisible_code doc ic with
  | error e =>
      rw [hf] at hw
      exact absurd (show (Except.error e : Except LocErr (Option DocxDoc × DocxWriteResult)) =
        Except.ok (some d2, res) from hw) (by simp)
  | ok m =>
      simp only [hf] at hw
      cases hwt : writeToTable (doc.getD m.table_index []) c ow ub apu sm h1 with
      | mk opt res2 =>
          simp only [hwt] at hw
          cases opt with
          | none =>
              have hw2 : (Except.ok (none, res2) :
                  Except LocErr (Option DocxDoc × DocxWriteResult)) =
                  Except.ok (some d2, res) := hw
              injection hw2 with hp
              injection hp with ha hb
              exact absurd ha (by simp)
          | some t2 =>
              have hw2 : (Except.ok (some (doc.set m.table_index t2), res2) :
                  Except LocErr (Option DocxDoc × DocxWriteResult)) =
                  Except.ok (some d2, res) := hw
              injection hw2 with hp
              injection hp with ha hb
              injection ha with ha2
              intro rd hrd
              rw [← ha2] at hrd
              obtain ⟨tb, htb, hrdtb⟩ := (read_final_mem_iff _ h1 rd).mp hrd
              rcases mem_set_elem doc m.table_index t2 tb htb with rfl | htb0
              · have hnoT : ∀ rd0 ∈ readFinalTable (doc.getD m.table_index []) h1,
                    normalize_for_compare rd0.homesite ≠ key := by
                  intro rd0 hrd0
                  by_cases hti : m.table_index < doc.length
                  · exact hno rd0 ((read_final_mem_iff doc h1 rd0).mpr
                      ⟨doc.getD m.table_index [], getD_mem doc m.table_index [] hti, hrd0⟩)
                  · rw [getD_oob doc m.table_index [] (by omega)] at hrd0
                    simp [readFinalTable] at hrd0
                exact writeToTable_noUnit _ c ow ub apu sm h1 tb res2 key hwt hkey hnoT rd hrdtb
              · exact hno rd ((read_final_mem_iff doc h1 rd).mpr ⟨tb, htb0, hrdtb⟩)

/-- Folding one floorplan group's rebuild writes preserves the absence of a
unit id that none of the group's control rows carries. -/
theorem rebuildWrites_noUnit (ic : String) (h1 : Nat) (key : String) :
    ∀ (crows : List ControlRow) (doc d2 : DocxDoc),
    (∀ cr ∈ crows, normalize_for_compare cr.homesite ≠ key) →
    (∀ rd ∈ read_final_docx_data doc h1, normalize_for_compare rd.homesite ≠ key) →
    rebuildWrites doc ic h1 crows = .ok d2 →
    ∀ rd ∈ read_final_docx_data d2 h1, normalize_for_compare rd.homesite ≠ key := by
  intro crows
  induction crows with
  | nil =>
      intro doc d2 _ hno hr
      injection hr with h
      rw [← h]
      exact hno
  | cons cr rest ih =>
      intro doc d2 hcr hno hr
      unfold rebuildWrites at hr
      cases hw : write_to_template doc ic cr true false true false false h1 with
      | error e =>
          rw [hw] at hr
          exact absurd (show (Except.error e : Except LocErr DocxDoc) = .ok d2 from hr)
            (by simp)
      | ok pr =>
          obtain ⟨opt, res⟩ := pr
          rw [hw] at hr
          cases opt with
          | none =>
              have hr2 : rebuildWrites doc ic h1 rest = .ok d2 := hr
              exact ih doc d2 (fun c hc => hcr c (List.mem_cons_of_mem _ hc)) hno hr2
          | some dm =>
              have hr2 : rebuildWrites dm ic h1 rest = .ok d2 := hr
              have hnom := write_to_template_noUnit doc ic cr true false true false h1 dm res
                key hw (hcr cr (List.mem_cons_self cr rest)) hno
              exact ih dm d2 (fun c hc => hcr c (List.mem_cons_of_mem _ hc)) hnom hr2

/-- Rebuilding a whole template from a blank document writes only the
authoritative control rows: a unit id carried by none of them cannot appear
in the rebuilt document's reader output. -/
theorem rebuildDoc_noUnit (h1 : Nat) (key : String) :
    ∀ (groups : List (String × Nat × List ControlRow)) (blank d : DocxDoc),
    (∀ g ∈ groups, g.2.1 = h1) →
    (∀ g ∈ groups, ∀ cr ∈ g.2.2, normalize_for_compare cr.homesite ≠ key) →
    (∀ rd ∈ read_final_docx_data blank h1, normalize_for_compare rd.homesite ≠ key) →
    rebuildDoc blank groups = .ok d →
    ∀ rd ∈ read_final_docx_data d h1, normalize_for_compare rd.homesite ≠ key := by
  intro groups
  induction groups with
  | nil =>
      intro blank d _ _ hno hr
      injection hr with h
      rw [← h]
      exact hno
  | cons g rest ih =>
      intro blank d hhdr hkeys hno hr
      obtain ⟨ic, hdr, crows⟩ := g
      have hd : hdr = h1 := hhdr (ic, hdr, crows) (List.mem_cons_self _ _)
      unfold rebuildDoc at hr
      cases hrw : rebuildWrites blank ic hdr crows with
      | error e =>
          rw [hrw] at hr
          exact absurd (show (Except.error e : Except LocErr DocxDoc) = .ok d from hr)
            (by simp)
      | ok dm =>
          rw [hrw] at hr
          have hr2 : rebuildDoc dm rest = .ok d := hr
          have hno1 : ∀ rd ∈ read_final_docx_data blank hdr,
              normalize_for_compare rd.homesite ≠ key := by
            rw [hd]; exact hno
          have hnom := rebuildWrites_noUnit ic hdr key crows blank dm
            (hkeys (ic, hdr, crows) (List.mem_cons_self _ _)) hno1 hrw
          have hnom1 : ∀ rd ∈ read_final_docx_data dm h1,
              normalize_for_compare rd.homesite ≠ key := by
            rw [← hd]; exact hnom
          exact ih dm d (fun g hg => hhdr g (List.mem_cons_of_mem _ hg))
            (fun g hg => hkeys g (List.mem_cons_of_mem _ hg)) hnom1 hr2

/-- C2: reconciliation marks a template stale exactly under the spec's three
conditions — (a) a rendered unit id with no counterpart control Record,
(b) a Record with no rendered counterpart, (c) a matched pair whose notes
differ or whose non-empty price/address/ready-by differs; in particular a
rendered unit id absent from the Records fires staleness, and the regenerated
output — rebuilt from a blank template by writing only the authoritative
rows — omits that unit. -/
theorem C2_reconciliation (h1 : Nat) (key : String) :
    (∀ (existing : List (String × RowData)) (crows : List ControlRow),
      sync_any_changes existing crows = true ↔ staleSpec existing crows) ∧
    (∀ (existing : List (String × RowData)) (crows : List ControlRow)
      (p : String × RowData), p ∈ existing →
      (∀ cr ∈ crows, normalize_for_compare cr.homesite ≠ p.1) →
      sync_any_changes existing crows = true) ∧
    (∀ (groups : List (String × Nat × List ControlRow)) (blank d : DocxDoc),
      (∀ g ∈ groups, g.2.1 = h1) →
      (∀ g ∈ groups, ∀ cr ∈ g.2.2, normalize_for_compare cr.homesite ≠ key) →
      (∀ rd ∈ read_final_docx_data blank h1, normalize_for_compare rd.homesite ≠ key) →
      rebuildDoc blank groups = .ok d →
      ∀ rd ∈ read_final_docx_data d h1, normalize_for_compare rd.homesite ≠ key) := by
  refine ⟨sync_any_changes_iff, ?_, rebuildDoc_noUnit h1 key⟩
  intro existing crows p hp hall
  rw [sync_any_changes_iff]
  exact Or.inl ⟨p, hp, hall⟩

/-- The C2 scenario: the final file renders unit "12", CONTROL only has
unit "7". -/
def C2existing : List (String × RowData) :=
  [("12", { homesite := "12", price := "$500,000" })]

def C2crow : ControlRow :=
  { community := "NOVA", homesite := "7", floorplan := "02", price := "450000" }

/-- A blank template document for the rebuild: marker, header, one empty
data row. -/
def C2blank : DocxDoc :=
  [[[{ text := "Price Sheet [[PS|COMM=NOVA|FP=02]]" }],
    [{ text := "Site" }, { text := "Price" }, { text := "Address" },
     { text := "Ready-By" }, { text := "Notes" }],
    [{ text := "" }, { text := "" }, { text := "" }, { text := "" }, { text := "" }]]]

def C2groups : List (String × Nat × List ControlRow) :=
  [("[[PS|COMM=NOVA|FP=02]]", 2, [C2crow])]

/-- The rebuilt document. -/
def C2rebuilt : DocxDoc := (rebuildDoc C2blank C2groups).toOption.getD []

/-- C2 witness: with the final file rendering unit "12" and CONTROL holding
only unit "7", staleness fires, and the document rebuilt from the blank
template contains no row whose unit id normalizes to "12". -/
theorem C2_reconciliation_witness :
    sync_any_changes C2existing [C2crow] = true ∧
    (read_final_docx_data C2rebuilt 2).all
      (fun rd => normalize_for_compare rd.homesite != "12") = true := by
  constructor
  · exact (C2_reconciliation 2 "12").2.1 C2existing [C2crow]
      ("12", { homesite := "12", price := "$500,000" }) (by decide) (by decide)
  · have h := (C2_reconciliation 2 "12").2.2 C2groups C2blank C2rebuilt
      (by decide) (by decide) (by decide) (by rfl)
    rw [List.all_eq_true]
    intro rd hrd
    simpa using h rd hrd
